import Mathlib

/-!
Verification of the PlanarCut fracture pipeline
(`Engine/Plugins/Experimental/PlanarCutPlugin/Source/PlanarCut`).

Shallow embedding notes:
* C++ `double`/`float` values are modelled as exact rationals (`ℚ`);
  `FVector`/`FVector3d` becomes `Vec3`, `FVector2f` becomes `Vec2`.
* `TArray<T>` becomes `List T`; a `TManagedArray` column of the geometry
  collection becomes a `List` field of `Collection`.  Out-of-range reads,
  which are undefined behaviour in the C++, are modelled with `getD`
  defaults; the theorems below only depend on in-range accesses.
* External engine code (the `FMeshBoolean` solver, `FTransform` math,
  `GeometryCollectionAlgo::GlobalMatrices`, the collision sampler) enters
  the embedding as function parameters, since the claims under study do
  not depend on their internals, only on how their results are used.
-/

namespace PlanarCutProof

/-- A 3-vector with exact rational coordinates, modelling `FVector`/`FVector3d`. -/
structure Vec3 where
  x : ℚ
  y : ℚ
  z : ℚ
deriving DecidableEq, Repr

/-- A 2-vector with exact rational coordinates, modelling `FVector2f`/`FVector2D`. -/
structure Vec2 where
  x : ℚ
  y : ℚ
deriving DecidableEq, Repr

/-- Componentwise vector addition. -/
def Vec3.add (a b : Vec3) : Vec3 := ⟨a.x + b.x, a.y + b.y, a.z + b.z⟩

/-- Componentwise vector subtraction. -/
def Vec3.sub (a b : Vec3) : Vec3 := ⟨a.x - b.x, a.y - b.y, a.z - b.z⟩

/-- Scalar multiplication of a vector. -/
def Vec3.smul (s : ℚ) (a : Vec3) : Vec3 := ⟨s * a.x, s * a.y, s * a.z⟩

/-- Dot product, modelling `FVector3d::Dot`. -/
def Vec3.dot (a b : Vec3) : ℚ := a.x * b.x + a.y * b.y + a.z * b.z

/-- Cross product, modelling `FVector3d::Cross`. -/
def Vec3.cross (a b : Vec3) : Vec3 :=
  ⟨a.y * b.z - a.z * b.y, a.z * b.x - a.x * b.z, a.x * b.y - a.y * b.x⟩

/-- The zero vector. -/
def Vec3.zero : Vec3 := ⟨0, 0, 0⟩

/-!
### FCellMeshes material convention (GeometryMeshConversion.h)
-/

/-- `FCellMeshes::PlaneToMaterial`: encode a source plane index as a
(negative) material ID: `return -(Plane + 1);`. -/
def PlaneToMaterial (Plane : ℤ) : ℤ := -(Plane + 1)

/-- `FCellMeshes::MaterialToPlane`: recover the source plane index of a
material ID: `return MaterialID >= 0 ? -1 : -(MaterialID + 1);`. -/
def MaterialToPlane (MaterialID : ℤ) : ℤ :=
  if 0 ≤ MaterialID then -1 else -(MaterialID + 1)

/-!
### FInternalSurfaceMaterials::GetDefaultMaterialIDForGeometry (PlanarCut.cpp 53-93)

The C++ walks the face range `[FaceStart, FaceEnd)` of the geometry keeping a
running `TMap<int32,int32>` of counts and updating `MostCommonMaterialID`
whenever the current ID's count strictly exceeds `MaxCount`.
-/

/-- One iteration of the most-frequent-material scan: state is
(`MaterialIDCount`, `MaxCount`, `MostCommonMaterialID`); the count of
`CurrID` is bumped, and the most-common trackers update when the bumped
count strictly exceeds `MaxCount`. -/
def tallyStep (st : (ℤ → ℕ) × ℕ × ℤ) (CurrID : ℤ) : (ℤ → ℕ) × ℕ × ℤ :=
  if st.2.1 < st.1 CurrID + 1
  then (Function.update st.1 CurrID (st.1 CurrID + 1), st.1 CurrID + 1, CurrID)
  else (Function.update st.1 CurrID (st.1 CurrID + 1), st.2.1, st.2.2)

/-- The most-frequent scan over a face range's material IDs, returning the
final (`MaxCount`, `MostCommonMaterialID`) pair; the C++ initialises
`MaxCount = 0`, `MostCommonMaterialID = -1`. -/
def mostCommonScan (matIDs : List ℤ) : (ℤ → ℕ) × ℕ × ℤ :=
  matIDs.foldl tallyStep (fun _ => 0, 0, -1)

/-- `FInternalSurfaceMaterials::GetDefaultMaterialIDForGeometry`, acting on the
list of material IDs of the geometry's face range: find the most common ID,
replace a `-1` result by `0` (the "no face case"), then map even IDs to the
adjacent odd (internal) ID. -/
def GetDefaultMaterialIDForGeometry (matIDs : List ℤ) : ℤ :=
  let MostCommonMaterialID := (mostCommonScan matIDs).2.2
  let M := if MostCommonMaterialID = -1 then 0 else MostCommonMaterialID
  if M % 2 = 0 then M + 1 else M

/-!
### The geometry collection data model (FGeometryCollection)

The external columnar store: parallel arrays indexed by element position
within the Transform, Geometry, Vertices and Faces groups.  Only the columns
touched by the PlanarCut core are modelled.  The `Proximity` attribute is a
lazily-added Geometry-group column; its presence is the `hasProximity` flag.
-/

/-- An axis-aligned bounding box (`FBox`): `none` is the empty/initialised
box, `some (mn, mx)` tracks componentwise min and max. -/
def Box := Option (Vec3 × Vec3)
deriving DecidableEq

/-- The empty `FBox`. -/
def Box.empty : Box := none

/-- `FBox::operator+=(point)`: extend a bounding box by one point. -/
def boxExtend (b : Box) (v : Vec3) : Box :=
  match b with
  | none => some (v, v)
  | some (mn, mx) =>
      some (⟨min mn.x v.x, min mn.y v.y, min mn.z v.z⟩,
            ⟨max mx.x v.x, max mx.y v.y, max mx.z v.z⟩)

/-- Bounding box of a list of points, folding `+=` from the empty box. -/
def boxOfVerts (vs : List Vec3) : Box := vs.foldl boxExtend Box.empty

/-- Shallow embedding of the `FGeometryCollection` columns used by the
PlanarCut core.  Group membership is as in the C++: `parent`, `children`,
`simulationType`, `boneName`, `transformToGeometryIndex` live in the
Transform group; `vertexStart` .. `proximity` in the Geometry group;
`vertex` .. `boneMap` in the Vertices group; `indices`, `materialID`,
`visible` in the Faces group. -/
structure Collection where
  parent : List ℤ
  children : List (List ℕ)
  simulationType : List ℕ
  boneName : List String
  transformToGeometryIndex : List ℤ
  vertexStart : List ℕ
  vertexCount : List ℕ
  faceStart : List ℕ
  faceCount : List ℕ
  transformIndex : List ℕ
  boundingBox : List Box
  hasProximity : Bool
  proximity : List (Finset ℤ)
  vertex : List Vec3
  normal : List Vec3
  uvs : List (List Vec2)
  tangentU : List Vec3
  tangentV : List Vec3
  color : List Vec3
  boneMap : List ℕ
  indices : List (ℕ × ℕ × ℕ)
  materialID : List ℤ
  visible : List Bool
  numUVLayers : ℕ
deriving DecidableEq

/-- `FGeometryCollection::ESimulationTypes::FST_Rigid`. -/
def FST_Rigid : ℕ := 2

/-- `FGeometryCollection::ESimulationTypes::FST_Clustered`. -/
def FST_Clustered : ℕ := 3

/-!
### The augmented dynamic mesh (FDynamicMesh3 + geometry-collection attributes)

An `FDynamicMesh3` carrying the attributes installed by
`SetGeometryCollectionAttributes`: per-vertex normal, color, tangents and up
to 8 UV channels, plus per-triangle material ID and visibility.  Meshes are
modelled in compact form (dense vertex/triangle indices), so
`CompactInPlace` is the identity; the code paths below call it only to
establish compactness before copying.
-/

/-- One mesh vertex with its augmented per-vertex attributes. -/
structure AugVertex where
  pos : Vec3
  normal : Vec3
  uvs : List Vec2
  tangentU : Vec3
  tangentV : Vec3
  color : Vec3
deriving DecidableEq

/-- One mesh triangle (vertex index triple) with its augmented per-triangle
attributes. -/
structure AugTri where
  v0 : ℕ
  v1 : ℕ
  v2 : ℕ
  materialID : ℤ
  visible : Bool
deriving DecidableEq

/-- A compact augmented dynamic mesh. -/
structure AugMesh where
  vertices : List AugVertex
  tris : List AugTri
  numUVLayers : ℕ
deriving DecidableEq

/-- `Mesh.Clear()` followed by `AugmentedDynamicMesh::Augment(Mesh, n)`: an
empty augmented mesh with `n` UV layers. -/
def emptyAugMesh (n : ℕ) : AugMesh := ⟨[], [], n⟩

/-- The centroid of a mesh's vertex positions (`VertexCentroid` in
`ApplyGeneralGrout`). -/
def AugMesh.vertexCentroid (m : AugMesh) : Vec3 :=
  Vec3.smul (1 / (m.vertices.length : ℚ))
    ((m.vertices.map AugVertex.pos).foldl Vec3.add Vec3.zero)

/-- `Mesh.GetBounds(true)`: axis-aligned bounding box of the vertices. -/
def AugMesh.bounds (m : AugMesh) : Box := boxOfVerts (m.vertices.map AugVertex.pos)

/-- `FAxisAlignedBox3d::MaxDim()`: the longest axis extent.  The C++ value
for an empty box is meaningless (negative); the theorems below only use it
on nonempty meshes. -/
def Box.maxDim (b : Box) : ℚ :=
  match b with
  | none => 0
  | some (mn, mx) => max (mx.x - mn.x) (max (mx.y - mn.y) (mx.z - mn.z))

/-- `MeshTransforms::Scale(Mesh, One*f, origin)`: scale every vertex position
uniformly about `origin` (attributes are untouched by a uniform scale). -/
def scaleMeshAbout (f : ℚ) (origin : Vec3) (m : AugMesh) : AugMesh :=
  { m with vertices := m.vertices.map (fun v =>
      { v with pos := origin.add (Vec3.smul f (v.pos.sub origin)) }) }

/-- `FDynamicMeshEditor::AppendMesh` on compact meshes: concatenate vertices
and append the triangles with their vertex indices offset. -/
def AugMesh.appendMesh (base toAppend : AugMesh) : AugMesh :=
  { base with
    vertices := base.vertices ++ toAppend.vertices
    tris := base.tris ++ toAppend.tris.map (fun t =>
      { t with v0 := t.v0 + base.vertices.length
               v1 := t.v1 + base.vertices.length
               v2 := t.v2 + base.vertices.length }) }

/-!
### FCellMeshes::ApplyGeneralGrout (GeometryMeshConversion.cpp 1318-1377)
-/

/-- The cell-mesh set of `FCellMeshes`: one augmented mesh per cell, with an
optional reserved outside cell index (`-1` when absent). -/
structure CellMeshesState where
  cellMeshes : List AugMesh
  outsideCellIndex : ℤ
  numUVLayers : ℕ
deriving DecidableEq

/-- `FMathd::ZeroTolerance * 1000` (`1e-8 * 1000 = 1e-5`), the clearing
threshold used on the grout scale factor. -/
def zeroTolTimes1000 : ℚ := 1 / 100000

/-- The per-cell body of `ApplyGeneralGrout`: scale the mesh uniformly about
its vertex centroid by `(BoundsSize - Grout/2) / BoundsSize`, or clear it to
an empty augmented mesh when that factor is below `ZeroTolerance * 1000`. -/
def groutScaleCell (Grout : ℚ) (NumUVLayers : ℕ) (m : AugMesh) : AugMesh :=
  if (Box.maxDim m.bounds - Grout * (1/2)) / Box.maxDim m.bounds < zeroTolTimes1000
  then emptyAugMesh NumUVLayers
  else
    scaleMeshAbout ((Box.maxDim m.bounds - Grout * (1/2)) / Box.maxDim m.bounds)
      m.vertexCentroid m

/-- The first loop of `ApplyGeneralGrout`: every cell except the outside cell
is scaled in (or cleared). -/
def groutScaledCells (Grout : ℚ) (st : CellMeshesState) : List AugMesh :=
  (List.range st.cellMeshes.length).map (fun (i : ℕ) =>
    if ((i : ℤ) = st.outsideCellIndex) then st.cellMeshes.getD i (emptyAugMesh st.numUVLayers)
    else groutScaleCell Grout st.numUVLayers (st.cellMeshes.getD i (emptyAugMesh st.numUVLayers)))

/-- The second loop of `ApplyGeneralGrout`: the outside cell is cleared and
rebuilt by plainly appending every other (already scaled) cell mesh. -/
def groutOutsideRebuilt (Grout : ℚ) (st : CellMeshesState) : AugMesh :=
  ((List.range st.cellMeshes.length).filter (fun (i : ℕ) => ((i : ℤ) ≠ st.outsideCellIndex))).foldl
    (fun acc i => acc.appendMesh ((groutScaledCells Grout st).getD i (emptyAugMesh st.numUVLayers)))
    (emptyAugMesh st.numUVLayers)

/-- `FCellMeshes::ApplyGeneralGrout`: no-op for `Grout <= 0`; otherwise scale
in (or clear) every non-outside cell and, when an outside cell exists,
rebuild it as the append of the others. -/
def ApplyGeneralGrout (Grout : ℚ) (st : CellMeshesState) : CellMeshesState :=
  if Grout ≤ 0 then st
  else if st.outsideCellIndex = -1 then
    { st with cellMeshes := groutScaledCells Grout st }
  else
    { st with cellMeshes := List.set (groutScaledCells Grout st) st.outsideCellIndex.toNat (groutOutsideRebuilt Grout st) }

/-!
### FindBoneVolumes (PlanarCut.cpp 766-836)

`GeometryCollectionAlgo::GlobalMatrices` (external) fills a per-target array
of global transforms; it is modelled as the function parameter `Transforms`
from target position to a position-transforming map, independent of the
`ScalePerDimension` argument exactly as in the C++.
-/

/-- The reference point of `GetVolume`: the centroid (`Center`) of the
geometry's transformed vertex range. -/
def volumeCenter (c : Collection) (GeomIdx : ℕ) (Transform : Vec3 → Vec3) : Vec3 :=
  Vec3.smul (1 / (c.vertexCount.getD GeomIdx 0 : ℚ))
    (((List.range (c.vertexCount.getD GeomIdx 0)).map
        (fun i => Transform (c.vertex.getD (c.vertexStart.getD GeomIdx 0 + i) Vec3.zero))).foldl
      Vec3.add Vec3.zero)

/-- One face's contribution inside `GetVolume`: the signed volume of the
tetrahedron formed by face `FIdx` and the reference point `Center`, with
each edge vector scaled by `DimScaleFactor`:
`((V0 - Center) * s).Dot((V2 - Center) * s  ×  (V1 - Center) * s) / 6`. -/
def faceVolumeTerm (c : Collection) (Transform : Vec3 → Vec3)
    (DimScaleFactor : ℚ) (Center : Vec3) (FIdx : ℕ) : ℚ :=
  (Vec3.smul DimScaleFactor
      ((Transform (c.vertex.getD (c.indices.getD FIdx (0, 0, 0)).1 Vec3.zero)).sub Center)).dot
    ((Vec3.smul DimScaleFactor
        ((Transform (c.vertex.getD (c.indices.getD FIdx (0, 0, 0)).2.2 Vec3.zero)).sub Center)).cross
      (Vec3.smul DimScaleFactor
        ((Transform (c.vertex.getD (c.indices.getD FIdx (0, 0, 0)).2.1 Vec3.zero)).sub Center)))
    / 6

/-- The `GetVolume` lambda of `FindBoneVolumes`: signed volume of a geometry
by tetrahedral decomposition about the centroid of its (transformed)
vertices; an empty vertex range (`VStart == VEnd`) returns `0`. -/
def GetVolume (c : Collection) (GeomIdx : ℕ) (Transform : Vec3 → Vec3)
    (DimScaleFactor : ℚ) : ℚ :=
  if c.vertexCount.getD GeomIdx 0 = 0 then 0
  else
    ((List.range (c.faceCount.getD GeomIdx 0)).map (fun i =>
      faceVolumeTerm c Transform DimScaleFactor
        (volumeCenter c GeomIdx Transform) (c.faceStart.getD GeomIdx 0 + i))).sum

/-- The effective target list of `FindBoneVolumes`/`MergeBones`: an empty
input selects every transform of the collection. -/
def effTargets (c : Collection) (TransformIndices : List ℕ) : List ℕ :=
  if TransformIndices = [] then List.range c.transformToGeometryIndex.length
  else TransformIndices

/-- `FindBoneVolumes`: per-target signed volumes; targets whose transform has
no attached geometry (`TransformToGeometryIndex == -1`) get volume `0`. -/
def FindBoneVolumes (c : Collection) (TransformIndices : List ℕ)
    (Transforms : ℕ → Vec3 → Vec3) (ScalePerDimension : ℚ) : List ℚ :=
  (List.range (effTargets c TransformIndices).length).map (fun Idx =>
    if c.transformToGeometryIndex.getD
        ((effTargets c TransformIndices).getD Idx 0) (-1) = -1 then 0
    else
      GetVolume c
        (c.transformToGeometryIndex.getD
          ((effTargets c TransformIndices).getD Idx 0) (-1)).toNat
        (Transforms Idx) ScalePerDimension)

/-!
### FindSmallBones (PlanarCut.cpp 839-881)
-/

/-- The `AddIdx` lambda of `FindSmallBones`: a transform index is flagged when
it has attached geometry and `Volumes[TransformIdx] < MinVolume`.  Note the
`Volumes` lookup is by the transform index itself, not by the position of the
transform within the target list. -/
def addIdxCond (c : Collection) (Volumes : List ℚ) (MinVolume : ℚ)
    (TransformIdx : ℕ) : Bool :=
  decide (-1 < c.transformToGeometryIndex.getD TransformIdx (-1))
    && decide (Volumes.getD TransformIdx 0 < MinVolume)

/-- `FindSmallBones`: flag the targets (all transforms, when the target list
is empty) that satisfy `AddIdx`, after the `ensure` size check of `Volumes`
against the iterated list (on failure the output stays empty). -/
def FindSmallBones (c : Collection) (TransformIndices : List ℕ)
    (Volumes : List ℚ) (MinVolume : ℚ) : List ℕ :=
  if TransformIndices = [] then
    if Volumes.length ≠ c.transformToGeometryIndex.length then []
    else (List.range c.transformToGeometryIndex.length).filter
      (addIdxCond c Volumes MinVolume)
  else
    if Volumes.length ≠ TransformIndices.length then []
    else TransformIndices.filter (addIdxCond c Volumes MinVolume)

/-- Modelled from the claim (and from `FindBoneVolumes`, which produces
`Volumes` positionally): the positional reading of `FindSmallBones`, in which
target `TransformIndices[i]` is tested against `Volumes[i]`.  Used only to
exhibit the divergence from the code. -/
def FindSmallBonesByPosition (c : Collection) (TransformIndices : List ℕ)
    (Volumes : List ℚ) (MinVolume : ℚ) : List ℕ :=
  (List.range TransformIndices.length).filterMap (fun i =>
    if -1 < c.transformToGeometryIndex.getD (TransformIndices.getD i 0) (-1)
        ∧ Volumes.getD i 0 < MinVolume
    then some (TransformIndices.getD i 0) else none)

/-!
### FDynamicMeshCollection::AppendToCollection / UpdateCollection
(GeometryMeshConversion.cpp 2903-3075)

`FTransform` math is external engine code; the two inverse maps actually
used (`InverseTransformPosition` for positions and
`InverseTransformVectorNoScale` for normals/tangents) are carried as the
fields of a `RigidMap`.  `AugmentedDynamicMesh::AddCollisionSamplesPerComponent`
is repository code, but none of the claims below constrain its behaviour:
it enters as the opaque in-place mesh transformation `sampler`.  The
`FGeometryCollection` managed-array machinery (`AddElements`,
`SetNumUVLayers`, `ResizeGeometries`) is external; `AddElements` extends
every column of a group with default entries and is modelled by appending
the default then writing it with `List.set`.
-/

/-- The pair of inverse maps of a `FromCollection` transform:
`InverseTransformPosition` and `InverseTransformVectorNoScale`. -/
structure RigidMap where
  invPos : Vec3 → Vec3
  invVec : Vec3 → Vec3

/-- Number of geometry-group elements (all Geometry columns share it in a
well-formed collection; `FaceStart` is the column the C++ reads). -/
def numGeometry (c : Collection) : ℕ := c.faceStart.length

/-- Number of transform-group elements. -/
def numTransforms (c : Collection) : ℕ := c.parent.length

/-- `Output.UVs[i].SetNum(n)` / layer-wise `GetUV` readback: the first `n` UV
channels of a vertex, padding missing channels with zero. -/
def uvChannels (n : ℕ) (v : AugVertex) : List Vec2 :=
  (List.range n).map (fun l => v.uvs.getD l ⟨0, 0⟩)

/-- `FGeometryCollection::SetNumUVLayers` (external): set the UV channel
count, resizing every vertex's channel list. -/
def setNumUVLayers (n : ℕ) (c : Collection) : Collection :=
  { c with numUVLayers := n, uvs := c.uvs.map (fun u => (List.range n).map (fun l => u.getD l ⟨0, 0⟩)) }

/-- The body of `AppendToCollection` after the early-outs: append one
Geometry and one Transform entry for the (already compacted and
collision-sampled) mesh `M`, fill the new vertex/face ranges, link the new
transform under `TransformParent` when one is given, and compute the new
entry's bounding box from the copied vertices. -/
def appendMeshEntry (fc : RigidMap) (M : AugMesh) (TransformParent : ℤ)
    (BoneNameStr : String) (Output : Collection) (InternalMaterialID : ℤ) : Collection :=
  { parent :=
      if -1 < TransformParent
      then (Output.parent ++ [-1]).set (numTransforms Output) TransformParent
      else Output.parent ++ [-1]
    children :=
      if -1 < TransformParent
      then (Output.children ++ [[]]).set TransformParent.toNat
            ((Output.children ++ [[]]).getD TransformParent.toNat [] ++ [numTransforms Output])
      else Output.children ++ [[]]
    simulationType :=
      if -1 < TransformParent
      then ((Output.simulationType ++ [0]).set TransformParent.toNat FST_Clustered).set
            (numTransforms Output) FST_Rigid
      else (Output.simulationType ++ [0]).set (numTransforms Output) FST_Rigid
    boneName :=
      if -1 < TransformParent
      then (Output.boneName ++ [""]).set (numTransforms Output) BoneNameStr
      else Output.boneName ++ [""]
    transformToGeometryIndex :=
      (Output.transformToGeometryIndex ++ [-1]).set (numTransforms Output) (numGeometry Output)
    vertexStart := (Output.vertexStart ++ [0]).set (numGeometry Output) Output.vertex.length
    vertexCount := (Output.vertexCount ++ [0]).set (numGeometry Output) M.vertices.length
    faceStart := (Output.faceStart ++ [0]).set (numGeometry Output) Output.indices.length
    faceCount := (Output.faceCount ++ [0]).set (numGeometry Output) M.tris.length
    transformIndex := (Output.transformIndex ++ [0]).set (numGeometry Output) (numTransforms Output)
    boundingBox :=
      (Output.boundingBox ++ [Box.empty]).set (numGeometry Output)
        (boxOfVerts (M.vertices.map (fun v => fc.invPos v.pos)))
    hasProximity := Output.hasProximity
    proximity := Output.proximity ++ [∅]
    vertex := Output.vertex ++ M.vertices.map (fun v => fc.invPos v.pos)
    normal := Output.normal ++ M.vertices.map (fun v => fc.invVec v.normal)
    uvs := Output.uvs ++ M.vertices.map (uvChannels (max M.numUVLayers 1))
    tangentU := Output.tangentU ++ M.vertices.map (fun v => fc.invVec v.tangentU)
    tangentV := Output.tangentV ++ M.vertices.map (fun v => fc.invVec v.tangentV)
    color := Output.color ++ M.vertices.map AugVertex.color
    boneMap := Output.boneMap ++ M.vertices.map (fun _ => numTransforms Output)
    indices := Output.indices ++ M.tris.map (fun t =>
      (t.v0 + Output.vertex.length, t.v1 + Output.vertex.length, t.v2 + Output.vertex.length))
    materialID := Output.materialID ++ M.tris.map (fun t =>
      if t.materialID < 0 then InternalMaterialID else t.materialID)
    visible := Output.visible ++ M.tris.map AugTri.visible
    numUVLayers := Output.numUVLayers }

/-- `FDynamicMeshCollection::AppendToCollection`: a zero-triangle mesh
returns `-1` untouched; otherwise the mesh is (compacted and, for a positive
spacing, collision-sampled, both in place) appended as one new
Geometry+Transform entry, returning the new geometry index. -/
def AppendToCollection (fc : RigidMap) (sampler : AugMesh → AugMesh)
    (Mesh : AugMesh) (CollisionSampleSpacing : ℚ) (TransformParent : ℤ)
    (BoneNameStr : String) (Output : Collection) (InternalMaterialID : ℤ) :
    ℤ × Collection :=
  if Mesh.tris.length = 0 then (-1, Output)
  else
    ((numGeometry Output : ℤ),
     appendMeshEntry fc (if 0 < CollisionSampleSpacing then sampler Mesh else Mesh)
       TransformParent BoneNameStr Output InternalMaterialID)

/-- `l.take start ++ new ++ (rest)`: overwrite the `new.length` entries of
`l` beginning at `start` (the loops `Output.X[CopyToIdx] = ...` of
`UpdateCollection`). -/
def writeRange {α : Type} (l : List α) (start : ℕ) (new : List α) : List α :=
  l.take start ++ new ++ l.drop (start + new.length)

/-- `FDynamicMeshCollection::UpdateCollection`: after compaction and
`SetNumUVLayers`, fail (returning the collection as of the failed `ensure`)
when the replacement mesh's vertex or triangle count differs from the slot's
`VertexCount`/`FaceCount`; otherwise overwrite exactly that slot's vertex
and face ranges and recompute its bounding box from the copied vertices. -/
def UpdateCollection (fc : RigidMap) (Mesh : AugMesh) (GeometryIdx : ℕ)
    (Output : Collection) (InternalMaterialID : ℤ) : Bool × Collection :=
  let O := setNumUVLayers Mesh.numUVLayers Output
  if O.vertexCount.getD GeometryIdx 0 ≠ Mesh.vertices.length
      ∨ O.faceCount.getD GeometryIdx 0 ≠ Mesh.tris.length
  then (false, O)
  else
    let VerticesStart := O.vertexStart.getD GeometryIdx 0
    let FacesStart := O.faceStart.getD GeometryIdx 0
    let TransformIdx := O.transformIndex.getD GeometryIdx 0
    let newVertex := writeRange O.vertex VerticesStart (Mesh.vertices.map (fun v => fc.invPos v.pos))
    (true,
     { O with
       vertex := newVertex
       normal := writeRange O.normal VerticesStart (Mesh.vertices.map (fun v => fc.invVec v.normal))
       uvs := writeRange O.uvs VerticesStart (Mesh.vertices.map (uvChannels Mesh.numUVLayers))
       tangentU := writeRange O.tangentU VerticesStart (Mesh.vertices.map (fun v => fc.invVec v.tangentU))
       tangentV := writeRange O.tangentV VerticesStart (Mesh.vertices.map (fun v => fc.invVec v.tangentV))
       color := writeRange O.color VerticesStart (Mesh.vertices.map AugVertex.color)
       boneMap := writeRange O.boneMap VerticesStart (Mesh.vertices.map (fun _ => TransformIdx))
       indices := writeRange O.indices FacesStart (Mesh.tris.map (fun t =>
         (t.v0 + VerticesStart, t.v1 + VerticesStart, t.v2 + VerticesStart)))
       materialID := writeRange O.materialID FacesStart (Mesh.tris.map (fun t =>
         if t.materialID < 0 then InternalMaterialID else t.materialID))
       visible := writeRange O.visible FacesStart (Mesh.tris.map AugTri.visible)
       boundingBox :=
         if O.boundingBox.length ≠ 0
         then O.boundingBox.set GeometryIdx
           (boxOfVerts ((newVertex.drop VerticesStart).take (O.vertexCount.getD GeometryIdx 0)))
         else O.boundingBox })

/-- A concrete one-transform, one-geometry collection holding `meshTriXY`'s
data, used to evaluate `AppendToCollection`/`UpdateCollection`. -/
def colC10 : Collection :=
  { parent := [-1], children := [[]], simulationType := [FST_Rigid]
    boneName := ["Root"], transformToGeometryIndex := [0]
    vertexStart := [0], vertexCount := [3], faceStart := [0], faceCount := [1]
    transformIndex := [0], boundingBox := [Box.empty]
    hasProximity := false, proximity := [∅]
    vertex := [⟨0, 0, 0⟩, ⟨1, 0, 0⟩, ⟨0, 1, 0⟩]
    normal := [Vec3.zero, Vec3.zero, Vec3.zero]
    uvs := [[⟨0, 0⟩], [⟨0, 0⟩], [⟨0, 0⟩]]
    tangentU := [Vec3.zero, Vec3.zero, Vec3.zero]
    tangentV := [Vec3.zero, Vec3.zero, Vec3.zero]
    color := [⟨1, 1, 1⟩, ⟨1, 1, 1⟩, ⟨1, 1, 1⟩]
    boneMap := [0, 0, 0]
    indices := [(0, 1, 2)], materialID := [0], visible := [true]
    numUVLayers := 1 }

/-- A vertex with the given position and default attributes (white color,
zero normal/tangents, one UV channel). -/
def mkVert (p : Vec3) : AugVertex :=
  ⟨p, Vec3.zero, [⟨0, 0⟩], Vec3.zero, Vec3.zero, ⟨1, 1, 1⟩⟩

/-- A concrete one-triangle mesh spanning the unit right triangle in the XY
plane (bounding box max dimension 1). -/
def meshTriXY : AugMesh :=
  ⟨[mkVert ⟨0, 0, 0⟩, mkVert ⟨1, 0, 0⟩, mkVert ⟨0, 1, 0⟩],
   [⟨0, 1, 2, 0, true⟩], 1⟩

/-- A concrete cell-mesh set with a single cell and no outside cell. -/
def cellsC5 : CellMeshesState := ⟨[meshTriXY], -1, 1⟩

/-- A concrete cell-mesh set with one ordinary cell and an outside cell at
index 1. -/
def cellsC5w : CellMeshesState := ⟨[meshTriXY, meshTriXY], 1, 1⟩

/-- A geometry collection with no elements in any group (used to build small
concrete collections for evaluating the definitions above). -/
def emptyCollection : Collection :=
  { parent := [], children := [], simulationType := [], boneName := []
    transformToGeometryIndex := [], vertexStart := [], vertexCount := []
    faceStart := [], faceCount := [], transformIndex := [], boundingBox := []
    hasProximity := false, proximity := [], vertex := [], normal := []
    uvs := [], tangentU := [], tangentV := [], color := [], boneMap := []
    indices := [], materialID := [], visible := [], numUVLayers := 1 }

/-- A tiny concrete collection: transform 0 has no geometry, transform 1 has
geometry 0, which has no vertices and no faces. -/
def colC7 : Collection :=
  { emptyCollection with
    parent := [-1, -1]
    transformToGeometryIndex := [-1, 0]
    vertexStart := [0], vertexCount := [0], faceStart := [0], faceCount := [0]
    transformIndex := [1], boundingBox := [none] }

/-- A concrete collection in which both transforms have attached geometry. -/
def colC6 : Collection :=
  { emptyCollection with
    parent := [-1, -1]
    transformToGeometryIndex := [0, 1]
    vertexStart := [0, 0], vertexCount := [0, 0]
    faceStart := [0, 0], faceCount := [0, 0]
    transformIndex := [0, 1], boundingBox := [none, none] }

/-!
### FDynamicMeshCollection::CutWithCellMeshes (GeometryMeshConversion.cpp 2538-2741)

The driver iterates over the working meshes (`Meshes`), runs one boolean per
cell in parallel, and commits each surface's results sequentially.  External
pieces appear as parameters:
* `booleanResult sIdx cellIdx`: the outcome of the `FMeshBoolean` for
  surface `sIdx` against cell `cellIdx` — `none` when the bounds test
  `CellBounds[CellIdx].Intersects(SurfaceBounds)` skipped the pair, and
  `some m` (with `m` possibly empty) for the solver's output;
* `split`: `SplitIslands` (repository code, but its internals — hash grids
  and spatial sorts over floating point — do not affect these claims);
  `none` models a `false` return (mesh kept whole), `some islands` a split;
* `isNbrGeom a b`: the `IsNeighboring` test between the result meshes that
  produced geometry entries `a` and `b` (the vertex hash caching around it
  is performance machinery with no observable effect);
* `sampler`: `AddCollisionSamplesPerComponent`, as in `AppendToCollection`.
-/

/-- One working mesh of `FDynamicMeshCollection::Meshes` (`FMeshData`). -/
structure MeshDataM where
  mesh : AugMesh
  transformIndex : ℕ
  fromCollection : RigidMap

/-- Placeholder `FMeshData` used as an out-of-range lookup default. -/
def defaultMeshData : MeshDataM := ⟨emptyAugMesh 0, 0, ⟨id, id⟩⟩

/-- The sequential state threaded through the surface loop of
`CutWithCellMeshes`: the collection, `FirstIdx`, and `GeometryForRemoval`. -/
structure CutState where
  col : Collection
  firstIdx : ℤ
  geometryForRemoval : List ℤ

/-- `NonEmptyResults`: how many boolean branches produced a mesh with at
least one triangle. -/
def nonEmptyCount (results : List (Option AugMesh)) : ℕ :=
  results.countP (fun r => match r with
    | none => false
    | some m => decide (0 < m.tris.length))

/-- The `(cell, island)` pairs appended for one surface: each non-empty
boolean result is island-split (kept whole when `SplitIslands` returns
`false`). -/
def cellIslands (split : AugMesh → Option (List AugMesh)) (numCells : ℕ)
    (results : List (Option AugMesh)) : List (ℕ × AugMesh) :=
  (List.range numCells).flatMap (fun cellIdx =>
    match results.getD cellIdx none with
    | none => []
    | some m =>
        if m.tris.length = 0 then []
        else match split m with
          | some islands => islands.map (fun isl => (cellIdx, isl))
          | none => [(cellIdx, m)])

/-- One island append: `AppendToCollection`, then update `FirstIdx` (only
when still `-1`), record the `CellToGeometry` pair and bump `SubPartIndex`. -/
def appendStep (g : AugMesh → AugMesh) (spacing : ℚ) (fc : RigidMap) (tIdx : ℕ)
    (parentName : String) (imat : ℤ) (acc : Collection × ℤ × List (ℕ × ℤ) × ℕ)
    (item : ℕ × AugMesh) : Collection × ℤ × List (ℕ × ℤ) × ℕ :=
  ((AppendToCollection fc g item.2 spacing (tIdx : ℤ)
      (parentName ++ "_" ++ toString acc.2.2.2) acc.1 imat).2,
   if acc.2.1 = -1
   then (AppendToCollection fc g item.2 spacing (tIdx : ℤ)
      (parentName ++ "_" ++ toString acc.2.2.2) acc.1 imat).1
   else acc.2.1,
   acc.2.2.1 ++ [(item.1,
     (AppendToCollection fc g item.2 spacing (tIdx : ℤ)
       (parentName ++ "_" ++ toString acc.2.2.2) acc.1 imat).1)],
   acc.2.2.2 + 1)

/-- The append loop for one surface: `AppendToCollection` per island,
tracking `FirstIdx`, the `CellToGeometry` multimap and `SubPartIndex`. -/
def appendFold (g : AugMesh → AugMesh) (spacing : ℚ) (fc : RigidMap) (tIdx : ℕ)
    (parentName : String) (imat : ℤ) (items : List (ℕ × AugMesh))
    (col0 : Collection) (firstIdx0 : ℤ) :
    Collection × ℤ × List (ℕ × ℤ) × ℕ :=
  items.foldl (appendStep g spacing fc tIdx parentName imat) (col0, firstIdx0, [], 0)

/-- `PlanesInOutput`: the source-plane indices recovered (via
`MaterialToPlane`) from the triangles of the non-empty boolean results.
The C++ collects them into a `TSet`; processing a plane more than once
performs the same idempotent set insertions, so the flat list is
equivalent. -/
def planesInOutputOf (numCells : ℕ) (results : List (Option AugMesh)) : List ℤ :=
  (List.range numCells).flatMap (fun cellIdx =>
    match results.getD cellIdx none with
    | none => []
    | some m =>
        if 0 < m.tris.length
        then (m.tris.map (fun t => MaterialToPlane t.materialID)).filter
          (fun p => decide (0 ≤ p))
        else [])

/-- `FInternalSurfaceMaterials::GetDefaultMaterialIDForGeometry` at the
collection level: scan the geometry's face range (or the whole face array
when `GeometryIdx <= -1`). -/
def GetDefaultMaterialIDForGeometryInCollection (c : Collection) (GeometryIdx : ℤ) : ℤ :=
  if -1 < GeometryIdx then
    GetDefaultMaterialIDForGeometry
      ((c.materialID.drop (c.faceStart.getD GeometryIdx.toNat 0)).take
        (c.faceCount.getD GeometryIdx.toNat 0))
  else GetDefaultMaterialIDForGeometry c.materialID

/-- `TMultiMap::MultiFind` on the `CellToGeometry` association list. -/
def multiFindZ (m : List (ℕ × ℤ)) (k : ℕ) : List ℤ :=
  (m.filter (fun pr => decide (pr.1 = k))).map (fun pr => pr.2)

/-- `Proximity[i].Add(v)` on the Geometry-group `Proximity` column; a
negative or out-of-range index (undefined behaviour in the C++) is a
no-op. -/
def proxInsert (p : List (Finset ℤ)) (i v : ℤ) : List (Finset ℤ) :=
  if 0 ≤ i then p.set i.toNat (insert v (p.getD i.toNat ∅)) else p

/-- The per-plane proximity writes of `CutWithCellMeshes`: connect the
geometry on the two sides of the plane, directly when each side is a single
piece and through `IsNeighboring` tests when either side was split. -/
def proximityPlaneStep (isNbrGeom : ℤ → ℤ → Bool) (CellConnectivity : List (ℤ × ℤ))
    (outsideCellIndex : ℤ) (cellToGeom : List (ℕ × ℤ))
    (prox : List (Finset ℤ)) (p : ℤ) : List (Finset ℤ) :=
  if (if (CellConnectivity.getD p.toNat (0, 0)).2 < 0 then outsideCellIndex
      else (CellConnectivity.getD p.toNat (0, 0)).2) = -1 then prox
  else
    let GeomA := multiFindZ cellToGeom (CellConnectivity.getD p.toNat (0, 0)).1.toNat
    let GeomB := multiFindZ cellToGeom
      (if (CellConnectivity.getD p.toNat (0, 0)).2 < 0 then outsideCellIndex
       else (CellConnectivity.getD p.toNat (0, 0)).2).toNat
    if GeomA.length = 1 ∧ GeomB.length = 1 then
      proxInsert (proxInsert prox (GeomA.getD 0 (-1)) (GeomB.getD 0 (-1)))
        (GeomB.getD 0 (-1)) (GeomA.getD 0 (-1))
    else if 1 ≤ GeomA.length ∧ 1 ≤ GeomB.length then
      GeomA.foldl (fun pr a =>
        GeomB.foldl (fun pr2 b =>
          if isNbrGeom a b then proxInsert (proxInsert pr2 a b) b a else pr2) pr) prox
    else prox

/-- The proximity stage for one surface: fold the per-plane writes over
`PlanesInOutput`. -/
def applyProximityStage (isNbrGeom : ℤ → ℤ → Bool) (CellConnectivity : List (ℤ × ℤ))
    (outsideCellIndex : ℤ) (planes : List ℤ) (cellToGeom : List (ℕ × ℤ))
    (col : Collection) : Collection :=
  { col with proximity := planes.foldl (proximityPlaneStep isNbrGeom CellConnectivity outsideCellIndex cellToGeom) col.proximity }

/-- Write `b` into the `Visible` column for every face index in
`[start, start+cnt)` (the loop of `FDynamicMeshCollection::SetVisibility`). -/
def setVisRange (start cnt : ℕ) (b : Bool) (vis : List Bool) : List Bool :=
  vis.mapIdx (fun i v => if start ≤ i ∧ i < start + cnt then b else v)

/-- `FDynamicMeshCollection::SetVisibility` for one geometry. -/
def SetVisibility (c : Collection) (GeometryIdx : ℕ) (b : Bool) : Collection :=
  { c with visible :=
      setVisRange (c.faceStart.getD GeometryIdx 0) (c.faceCount.getD GeometryIdx 0) b c.visible }

/-- `FDynamicMeshCollection::SetGeometryVisibility` over a list of geometry
indices (negative entries, impossible in well-formed input, are skipped). -/
def SetGeometryVisibility (c : Collection) (idxs : List ℤ) (b : Bool) : Collection :=
  idxs.foldl (fun acc i => if 0 ≤ i then SetVisibility acc i.toNat b else acc) c

/-- The body of the surface loop of `CutWithCellMeshes`: when more than one
boolean branch is non-empty, append all islands, run the proximity stage
(when the collection has a `Proximity` attribute) and mark the source
geometry for removal; otherwise leave everything untouched. -/
def cellCutSurfaceStep (g : AugMesh → AugMesh) (split : AugMesh → Option (List AugMesh))
    (isNbrGeom : ℤ → ℤ → Bool) (numCells : ℕ) (outsideCellIndex : ℤ)
    (CellConnectivity : List (ℤ × ℤ)) (bSetDefault : Bool) (globalMatID : ℤ)
    (spacing : ℚ) (results : List (Option AugMesh)) (surf : MeshDataM)
    (st : CutState) : CutState :=
  if 1 < nonEmptyCount results then
    let GeometryIdx := st.col.transformToGeometryIndex.getD surf.transformIndex (-1)
    let imat := if bSetDefault
      then GetDefaultMaterialIDForGeometryInCollection st.col GeometryIdx
      else globalMatID
    let ap := appendFold g spacing surf.fromCollection surf.transformIndex
      (st.col.boneName.getD surf.transformIndex "") imat
      (cellIslands split numCells results) st.col st.firstIdx
    let colProx := if st.col.hasProximity
      then applyProximityStage isNbrGeom CellConnectivity outsideCellIndex
        (planesInOutputOf numCells results) ap.2.2.1 ap.1
      else ap.1
    ⟨colProx, ap.2.1, st.geometryForRemoval ++ [GeometryIdx]⟩
  else st

/-- `FDynamicMeshCollection::CutWithCellMeshes`: fold the per-surface step
over the working meshes, then (with the compile-time policy
`bRemoveOldGeometry = false`) hide the superseded source geometry; returns
`FirstIdx` and the final collection. -/
def CutWithCellMeshes (g : AugMesh → AugMesh) (split : AugMesh → Option (List AugMesh))
    (isNbrGeom : ℤ → ℤ → Bool) (numCells : ℕ) (outsideCellIndex : ℤ)
    (CellConnectivity : List (ℤ × ℤ)) (bSetDefault : Bool) (globalMatID : ℤ)
    (spacing : ℚ) (booleanResult : ℕ → ℕ → Option AugMesh)
    (Meshes : List MeshDataM) (col0 : Collection) : ℤ × Collection :=
  let final := Meshes.enum.foldl (fun st pr =>
      cellCutSurfaceStep g split isNbrGeom numCells outsideCellIndex CellConnectivity
        bSetDefault globalMatID spacing
        ((List.range numCells).map (booleanResult pr.1)) pr.2 st)
    ⟨col0, -1, []⟩
  (final.firstIdx,
   if final.geometryForRemoval.length ≠ 0
   then SetGeometryVisibility final.col final.geometryForRemoval false
   else final.col)

/-!
### FDynamicMeshCollection::CutWithMultiplePlanes — transient proximity
multimap and per-piece cut step (GeometryMeshConversion.cpp 2290-2459)
-/

/-- `ProxLink`: `Proximity.Add(A, B); Proximity.Add(B, A);` on the transient
mesh-index multimap (modelled as a list of pairs with multiplicity). -/
def proxLink (P : List (ℕ × ℕ)) (A B : ℕ) : List (ℕ × ℕ) :=
  P ++ [(A, B), (B, A)]

/-- `ProxUnlink`: `Proximity.RemoveSingle(A, B); Proximity.RemoveSingle(B, A);`
— each removes one occurrence. -/
def proxUnlink (P : List (ℕ × ℕ)) (A B : ℕ) : List (ℕ × ℕ) :=
  (P.erase (A, B)).erase (B, A)

/-- `TMultiMap::MultiFind` on the transient mesh-index multimap. -/
def multiFindN (P : List (ℕ × ℕ)) (k : ℕ) : List ℕ :=
  (P.filter (fun pr => decide (pr.1 = k))).map (fun pr => pr.2)

/-- The state of the multi-plane cutting loop: the `ToCut` working array and
the transient proximity multimap. -/
structure MPState where
  toCut : List MeshDataM
  prox : List (ℕ × ℕ)

/-- The per-piece body of the plane loop of `CutWithMultiplePlanes` once the
two boolean results `r0`, `r1` for the piece at `toCutIdx` are computed: if
either result is empty the piece is left untouched (`bKeepResults = false`);
otherwise the piece is replaced by the island-split results and the
proximity multimap is relinked (neighbors re-tested via `isNbr`, mesh
islands of the same boolean branch never linked to each other). -/
def multiPlaneCutStep (split : AugMesh → Option (List AugMesh))
    (isNbr : ℕ → ℕ → Bool) (bHasProximity : Bool) (toCutIdx : ℕ)
    (r0 r1 : AugMesh) (st : MPState) : MPState :=
  if r0.tris.length = 0 ∨ r1.tris.length = 0 then st
  else
    let td := st.toCut.getD toCutIdx defaultMeshData
    let islands0 := match split r0 with | some l => l | none => [r0]
    let islands1 := match split r1 with | some l => l | none => [r1]
    let newIdx := st.toCut.length
    let toCut2 :=
      (st.toCut.set toCutIdx ⟨islands0.headD r0, td.transformIndex, td.fromCollection⟩
        ++ [⟨islands1.headD r1, td.transformIndex, td.fromCollection⟩])
      ++ (islands0.tail.map (fun m => ⟨m, td.transformIndex, td.fromCollection⟩)
        ++ islands1.tail.map (fun m => ⟨m, td.transformIndex, td.fromCollection⟩))
    let resultIndices := ([toCutIdx, newIdx]
      ++ (List.range islands0.tail.length).map (fun k => newIdx + 1 + k))
      ++ (List.range islands1.tail.length).map (fun k => newIdx + 1 + islands0.tail.length + k)
    let parentIndices : List ℕ := ([0, 1] ++ List.replicate islands0.tail.length 0)
      ++ List.replicate islands1.tail.length 1
    let prox2 :=
      if bHasProximity then
        let Nbrs := multiFindN st.prox toCutIdx
        let prox1 := Nbrs.foldl (fun P nbr =>
          resultIndices.foldl (fun P2 ri =>
            if isNbr ri nbr then proxLink P2 ri nbr else P2)
            (proxUnlink P toCutIdx nbr)) st.prox
        if resultIndices.length = 2 then proxLink prox1 toCutIdx newIdx
        else
          (List.range resultIndices.length).foldl (fun (P : List (ℕ × ℕ)) (i : ℕ) =>
            (List.range resultIndices.length).foldl (fun (P2 : List (ℕ × ℕ)) (j : ℕ) =>
              if i < j ∧ parentIndices.getD i 0 ≠ parentIndices.getD j 0
                  ∧ isNbr (resultIndices.getD i 0) (resultIndices.getD j 0)
              then proxLink P2 (resultIndices.getD i 0) (resultIndices.getD j 0)
              else P2) P) prox1
      else st.prox
    ⟨toCut2, prox2⟩

/-- The final translation of `CutWithMultiplePlanes` (lines 2503-2511): each
multimap pair `(Key, Value)` becomes
`GCProximity[ToCutIdxToGeometryIdx[Key]].Add(ToCutIdxToGeometryIdx[Value])`. -/
def writeProximityFromMultimap (toGeom : ℕ → ℤ) (P : List (ℕ × ℕ))
    (prox : List (Finset ℤ)) : List (Finset ℤ) :=
  P.foldl (fun pr pair => proxInsert pr (toGeom pair.1) (toGeom pair.2)) prox

/-- Count-level symmetry of the transient multimap: every pair occurs as
often as its mirror. -/
def countSym (P : List (ℕ × ℕ)) : Prop :=
  ∀ a b : ℕ, P.count (a, b) = P.count (b, a)

/-- Membership symmetry of the collection's `Proximity` column: geometry `j`
lists geometry `i` exactly when `i` lists `j`. -/
def memSymm (p : List (Finset ℤ)) : Prop :=
  ∀ i j : ℕ, i < p.length → j < p.length →
    ((j : ℤ) ∈ p.getD i ∅ ↔ (i : ℤ) ∈ p.getD j ∅)

/-- Invariant of the sequential state of `CutWithCellMeshes` relative to the
starting collection `c0`: the `FaceCount` column is sized to the geometry
group; `FirstIdx` is `-1` exactly as long as no geometry was appended and
otherwise holds the index of the first appended entry (`numGeometry c0`);
and every appended entry has at least one face. -/
def StepInv (c0 : Collection) (st : CutState) : Prop :=
  st.col.faceCount.length = numGeometry st.col
  ∧ ((st.firstIdx = -1 ∧ numGeometry st.col = numGeometry c0)
      ∨ (st.firstIdx = (numGeometry c0 : ℤ) ∧ numGeometry c0 < numGeometry st.col))
  ∧ (∀ i : ℕ, numGeometry c0 ≤ i → i < numGeometry st.col → 0 < st.col.faceCount.getD i 0)

/-- Invariant of the most-frequent scan after processing the faces `l`:
the count map tallies `l`, `MaxCount` bounds every count, and either nothing
was seen yet (`MaxCount = 0`, `MostCommonMaterialID = -1`) or
`MostCommonMaterialID` occurs in `l` and realises `MaxCount`. -/
def ScanInv (l : List ℤ) (st : (ℤ → ℕ) × ℕ × ℤ) : Prop :=
  (∀ id, st.1 id = l.count id)
  ∧ (∀ id, l.count id ≤ st.2.1)
  ∧ ((st.2.1 = 0 ∧ st.2.2 = -1) ∨ (st.2.2 ∈ l ∧ l.count st.2.2 = st.2.1))

theorem tallyStep_inv (l : List ℤ) (st : (ℤ → ℕ) × ℕ × ℤ) (c : ℤ)
    (h : ScanInv l st) : ScanInv (l ++ [c]) (tallyStep st c) := by
  obtain ⟨hc, hb, hm⟩ := h
  have hcx : ∀ id : ℤ, (l ++ [c]).count id = l.count id + if id = c then 1 else 0 := by
    intro id
    rcases eq_or_ne id c with hid | hid
    · subst hid; simp
    · simp [hid]
  have hcounts : ∀ id : ℤ, (Function.update st.1 c (st.1 c + 1)) id = (l ++ [c]).count id := by
    intro id
    rcases eq_or_ne id c with hid | hid
    · subst hid; rw [Function.update_same, hcx, hc]; simp
    · rw [Function.update_noteq hid, hcx, hc id]; simp [hid]
  unfold tallyStep
  by_cases hlt : st.2.1 < st.1 c + 1
  · rw [if_pos hlt]
    refine ⟨hcounts, ?_, ?_⟩
    · intro id
      have h2 := hb id
      have h3 := hc c
      dsimp only
      rw [hcx id]
      rcases eq_or_ne id c with hid | hid
      · subst hid
        rw [if_pos rfl]
        omega
      · simp only [hid, if_false]
        omega
    · right
      dsimp only
      refine ⟨List.mem_append_right _ (by simp), ?_⟩
      have h3 := hc c
      rw [hcx c]
      rw [if_pos rfl]
      omega
  · rw [if_neg hlt]
    refine ⟨hcounts, ?_, ?_⟩
    · intro id
      have h2 := hb id
      have h3 := hc c
      dsimp only
      rw [hcx id]
      rcases eq_or_ne id c with hid | hid
      · subst hid
        rw [if_pos rfl]
        omega
      · simp only [hid, if_false]
        omega
    · have hmax1 : 1 ≤ st.2.1 := by
        have h3 := hc c
        omega
      dsimp only
      rcases hm with ⟨h0, _⟩ | ⟨hmem, hcnt⟩
      · omega
      · right
        refine ⟨List.mem_append_left _ hmem, ?_⟩
        rw [hcx st.2.2]
        rcases eq_or_ne st.2.2 c with hmc | hmc
        · exfalso
          rw [hmc] at hcnt
          have h3 := hc c
          omega
        · simp [hmc, hcnt]

theorem scan_inv_aux (l : List ℤ) :
    ∀ (pre : List ℤ) (st : (ℤ → ℕ) × ℕ × ℤ), ScanInv pre st →
      ScanInv (pre ++ l) (l.foldl tallyStep st) := by
  induction l with
  | nil => intro pre st h; simpa using h
  | cons c rest ih =>
      intro pre st h
      have h2 := ih (pre ++ [c]) (tallyStep st c) (tallyStep_inv pre st c h)
      simpa using h2

theorem scan_inv (l : List ℤ) : ScanInv l (mostCommonScan l) := by
  have h0 : ScanInv [] (fun _ => 0, 0, -1) := by
    refine ⟨by simp, by simp, Or.inl ⟨rfl, rfl⟩⟩
  simpa using scan_inv_aux l [] _ h0

theorem mostCommonScan_eq_of_unique (l : List ℤ) (M : ℤ) (hM : M ∈ l)
    (huniq : ∀ id ∈ l, id ≠ M → l.count id < l.count M) :
    (mostCommonScan l).2.2 = M := by
  obtain ⟨_, hb, hm⟩ := scan_inv l
  have hMpos : 0 < l.count M := List.count_pos_iff.mpr hM
  rcases hm with ⟨h0, _⟩ | ⟨hmem, hcnt⟩
  · have := hb M; omega
  · by_contra hne
    have hlt := huniq _ hmem hne
    have := hb M
    omega

/-- Claim C9: for every plane index `p ≥ 0`, `PlaneToMaterial p = -(p+1)` is
negative and `MaterialToPlane` recovers `p` from it; and every material ID
`m ≥ 0` maps to plane `-1` (no source plane). -/
theorem C9_plane_material_encoding (p m : ℤ) (hp : 0 ≤ p) (hm : 0 ≤ m) :
    PlaneToMaterial p = -(p + 1)
    ∧ PlaneToMaterial p < 0
    ∧ MaterialToPlane (PlaneToMaterial p) = p
    ∧ MaterialToPlane m = -1 := by
  unfold PlaneToMaterial MaterialToPlane
  refine ⟨rfl, by omega, ?_, by simp [hm]⟩
  have hneg : ¬ (0 : ℤ) ≤ -(p + 1) := by omega
  rw [if_neg hneg]
  ring

/-- Witness for C9 at `p = 2`, `m = 7`. -/
theorem C9_plane_material_encoding_witness :
    PlaneToMaterial 2 = -3
    ∧ PlaneToMaterial 2 < 0
    ∧ MaterialToPlane (PlaneToMaterial 2) = 2
    ∧ MaterialToPlane 7 = -1 :=
  C9_plane_material_encoding 2 7 (by norm_num) (by norm_num)

/-- Claim C8 (counterexample): a face range whose unique most-frequent
material ID is `-1` (an odd ID, so the claim predicts the returned ID is
`-1`) actually returns `1`, because the code's "no face case" test
`MostCommonMaterialID == -1` also fires on a genuine most-common ID of `-1`. -/
theorem C8_counterexample :
    ((-1 : ℤ) ∈ ([-1] : List ℤ)
      ∧ ∀ id ∈ ([-1] : List ℤ), id ≠ -1 →
          ([-1] : List ℤ).count id < ([-1] : List ℤ).count (-1))
    ∧ (-1 : ℤ) % 2 ≠ 0
    ∧ GetDefaultMaterialIDForGeometry [-1] ≠ -1
    ∧ GetDefaultMaterialIDForGeometry [-1] = 1 := by
  refine ⟨⟨by simp, ?_⟩, by decide, by decide, by decide⟩
  intro id hid hne
  simp at hid
  exact absurd hid hne

/-- Claim C8 (amended): for a face range whose unique most-frequent material
ID is `M` with `M ≠ -1`, `GetDefaultMaterialIDForGeometry` returns `M+1` when
`M` is even and `M` when `M` is odd (an odd result either way); a geometry
with no faces yields `1`. -/
theorem C8_default_internal_material (l : List ℤ) (M : ℤ) (hM : M ∈ l)
    (huniq : ∀ id ∈ l, id ≠ M → l.count id < l.count M) (hne : M ≠ -1) :
    GetDefaultMaterialIDForGeometry l = (if M % 2 = 0 then M + 1 else M)
    ∧ Odd (GetDefaultMaterialIDForGeometry l)
    ∧ GetDefaultMaterialIDForGeometry ([] : List ℤ) = 1 := by
  have hscan := mostCommonScan_eq_of_unique l M hM huniq
  have hres : GetDefaultMaterialIDForGeometry l = (if M % 2 = 0 then M + 1 else M) := by
    unfold GetDefaultMaterialIDForGeometry
    rw [hscan]
    simp [hne]
  refine ⟨hres, ?_, by decide⟩
  rw [hres]
  by_cases hpar : M % 2 = 0
  · simp only [hpar, if_true]
    exact (Int.even_iff.mpr hpar).add_one
  · simp only [hpar, if_false]
    exact Int.odd_iff.mpr (by omega)

/-- Witness for C8 at the face range `[4, 4, 3]`, whose unique most-frequent
material ID is `4`; the returned internal ID is `5`. -/
theorem C8_default_internal_material_witness :
    GetDefaultMaterialIDForGeometry [4, 4, 3] = 5
    ∧ Odd (GetDefaultMaterialIDForGeometry [4, 4, 3])
    ∧ GetDefaultMaterialIDForGeometry ([] : List ℤ) = 1 := by
  have h := C8_default_internal_material [4, 4, 3] 4 (by decide)
    (by decide) (by decide)
  simpa using h

theorem Vec3.smul_one_eq (a : Vec3) : Vec3.smul 1 a = a := by
  cases a
  simp [Vec3.smul]

theorem faceVolumeTerm_scale (c : Collection) (tr : Vec3 → Vec3) (s : ℚ)
    (Center : Vec3) (FIdx : ℕ) :
    faceVolumeTerm c tr s Center FIdx = s ^ 3 * faceVolumeTerm c tr 1 Center FIdx := by
  unfold faceVolumeTerm
  simp only [Vec3.smul, Vec3.sub, Vec3.dot, Vec3.cross]
  ring

theorem GetVolume_scale (c : Collection) (g : ℕ) (tr : Vec3 → Vec3) (s : ℚ) :
    GetVolume c g tr s = s ^ 3 * GetVolume c g tr 1 := by
  unfold GetVolume
  by_cases h : c.vertexCount.getD g 0 = 0
  · rw [if_pos h, if_pos h]
    ring
  · rw [if_neg h, if_neg h]
    rw [← List.sum_map_mul_left]
    apply congrArg List.sum
    apply List.map_congr_left
    intro i _
    exact faceVolumeTerm_scale c tr s _ _

/-- Claim C7: `FindBoneVolumes` with scale-per-dimension `s` equals,
entry-wise, `s³` times the result with scale-per-dimension `1`; a target
with no geometry entry, or whose geometry has zero vertices, gets volume
exactly `0`. -/
theorem C7_volume_scaling (c : Collection) (TransformIndices : List ℕ)
    (Transforms : ℕ → Vec3 → Vec3) (s : ℚ) :
    FindBoneVolumes c TransformIndices Transforms s
      = (FindBoneVolumes c TransformIndices Transforms 1).map (fun v => s ^ 3 * v)
    ∧ ∀ Idx, Idx < (effTargets c TransformIndices).length →
        (c.transformToGeometryIndex.getD
            ((effTargets c TransformIndices).getD Idx 0) (-1) = -1
          ∨ c.vertexCount.getD
              (c.transformToGeometryIndex.getD
                ((effTargets c TransformIndices).getD Idx 0) (-1)).toNat 0 = 0) →
        (FindBoneVolumes c TransformIndices Transforms s).getD Idx 0 = 0 := by
  constructor
  · unfold FindBoneVolumes
    rw [List.map_map]
    apply List.map_congr_left
    intro Idx _
    simp only [Function.comp_apply]
    by_cases h : c.transformToGeometryIndex.getD
        ((effTargets c TransformIndices).getD Idx 0) (-1) = -1
    · rw [if_pos h, if_pos h]
      ring
    · rw [if_neg h, if_neg h]
      exact GetVolume_scale c _ _ s
  · intro Idx hIdx hzero
    unfold FindBoneVolumes
    rw [List.getD_eq_getElem?_getD, List.getElem?_map, List.getElem?_range hIdx]
    simp only [Option.map_some', Option.getD_some]
    rcases hzero with h | h
    · rw [if_pos h]
    · by_cases hg : c.transformToGeometryIndex.getD
          ((effTargets c TransformIndices).getD Idx 0) (-1) = -1
      · rw [if_pos hg]
      · rw [if_neg hg]
        unfold GetVolume
        rw [if_pos h]

/-- Witness for C7 on `colC7` with targets `[0, 1]`, identity transforms and
scale `2`: the scaling identity holds and target 0 (no geometry) gets
volume 0. -/
theorem C7_volume_scaling_witness :
    (FindBoneVolumes colC7 [0, 1] (fun _ => id) 2
      = (FindBoneVolumes colC7 [0, 1] (fun _ => id) 1).map (fun v => 2 ^ 3 * v))
    ∧ (FindBoneVolumes colC7 [0, 1] (fun _ => id) 2).getD 0 0 = 0 :=
  ⟨(C7_volume_scaling colC7 [0, 1] (fun _ => id) 2).1,
   (C7_volume_scaling colC7 [0, 1] (fun _ => id) 2).2 0 (by decide) (Or.inl (by decide))⟩

/-- Claim C6: `FindSmallBones` evaluated at a concrete failing input.  Both
transforms of `colC6` have geometry; the target list is `[1, 0]` with
per-position volumes `[1/2, 100]` (so, positionally, transform 1 has volume
`1/2` and transform 0 has volume `100`) and `MinVolume = 1`.  The claim
(positional indexing, as produced by `FindBoneVolumes`) flags transform 1,
but the code indexes `Volumes` by the transform index itself and flags
transform 0 instead. -/
theorem C6_small_bones_divergence :
    FindSmallBones colC6 [1, 0] [1/2, 100] 1 = [0]
    ∧ FindSmallBonesByPosition colC6 [1, 0] [1/2, 100] 1 = [1]
    ∧ ([0] : List ℕ) ≠ [1] := by
  with_unfolding_all decide

theorem getD_map_range {α : Type} (n : ℕ) (f : ℕ → α) (i : ℕ) (d : α)
    (h : i < n) : ((List.range n).map f).getD i d = f i := by
  rw [List.getD_eq_getElem?_getD, List.getElem?_map, List.getElem?_range h]
  rfl

theorem foldl_appendMesh_vertices (l : List ℕ) (g : ℕ → AugMesh) (acc : AugMesh) :
    (l.foldl (fun a i => a.appendMesh (g i)) acc).vertices
      = acc.vertices ++ (l.map (fun i => (g i).vertices)).flatten := by
  induction l generalizing acc with
  | nil => simp
  | cons x xs ih =>
      rw [List.foldl_cons, ih]
      simp [AugMesh.appendMesh, List.append_assoc]

/-- Claim C5 (counterexample): with `Grout = 2 - 1/100000` the required
scale factor for `meshTriXY` (max bounding dimension 1) is `1/200000 > 0`,
yet `ApplyGeneralGrout` clears the cell to empty, because the code's
clearing test is `ScaleFactor < FMathd::ZeroTolerance * 1000` (`1e-5`), not
`ScaleFactor <= 0` as the claim states. -/
theorem C5_counterexample :
    (0 : ℚ) < (Box.maxDim (AugMesh.bounds meshTriXY) - (2 - 1/100000) * (1/2))
        / Box.maxDim (AugMesh.bounds meshTriXY)
    ∧ ((ApplyGeneralGrout (2 - 1/100000) cellsC5).cellMeshes.getD 0 (emptyAugMesh 1)).vertices = []
    ∧ meshTriXY.vertices ≠ [] := by
  with_unfolding_all decide

/-- Claim C5 (amended): when `Grout > 0`, every non-outside cell is scaled
uniformly about its vertex centroid by `(MaxDim - Grout/2)/MaxDim` — except
that it is cleared to empty exactly when that factor is below
`ZeroTolerance*1000 = 1e-5` (not merely when it is `≤ 0`) — and the outside
cell, when present, is rebuilt as the plain append (vertex lists
concatenated, no boolean union) of all the scaled-in non-outside cells. -/
theorem C5_grout (Grout : ℚ) (st : CellMeshesState) (hg : 0 < Grout)
    (hwf : st.outsideCellIndex = -1 ∨ 0 ≤ st.outsideCellIndex) :
    (∀ i, i < st.cellMeshes.length → (i : ℤ) ≠ st.outsideCellIndex →
      (ApplyGeneralGrout Grout st).cellMeshes.getD i (emptyAugMesh st.numUVLayers)
        = (if (Box.maxDim (st.cellMeshes.getD i (emptyAugMesh st.numUVLayers)).bounds - Grout * (1/2))
                / Box.maxDim (st.cellMeshes.getD i (emptyAugMesh st.numUVLayers)).bounds
              < zeroTolTimes1000
           then emptyAugMesh st.numUVLayers
           else scaleMeshAbout
              ((Box.maxDim (st.cellMeshes.getD i (emptyAugMesh st.numUVLayers)).bounds - Grout * (1/2))
                / Box.maxDim (st.cellMeshes.getD i (emptyAugMesh st.numUVLayers)).bounds)
              (st.cellMeshes.getD i (emptyAugMesh st.numUVLayers)).vertexCentroid
              (st.cellMeshes.getD i (emptyAugMesh st.numUVLayers))))
    ∧ (st.outsideCellIndex ≠ -1 → st.outsideCellIndex.toNat < st.cellMeshes.length →
      ((ApplyGeneralGrout Grout st).cellMeshes.getD st.outsideCellIndex.toNat
          (emptyAugMesh st.numUVLayers)).vertices
        = (((List.range st.cellMeshes.length).filter
              (fun (i : ℕ) => ((i : ℤ) ≠ st.outsideCellIndex))).map
            (fun i => ((groutScaledCells Grout st).getD i (emptyAugMesh st.numUVLayers)).vertices)).flatten) := by
  have hnle : ¬ Grout ≤ 0 := not_le.mpr hg
  constructor
  · intro i hi hne
    have hcell : (groutScaledCells Grout st).getD i (emptyAugMesh st.numUVLayers)
        = groutScaleCell Grout st.numUVLayers (st.cellMeshes.getD i (emptyAugMesh st.numUVLayers)) := by
      unfold groutScaledCells
      rw [getD_map_range _ _ _ _ hi, if_neg hne]
    unfold ApplyGeneralGrout
    rw [if_neg hnle]
    by_cases hout : st.outsideCellIndex = -1
    · rw [if_pos hout, hcell]
      rfl
    · rw [if_neg hout]
      have hnn : 0 ≤ st.outsideCellIndex := hwf.resolve_left hout
      have hiz : i ≠ st.outsideCellIndex.toNat := by
        intro hcon
        apply hne
        rw [hcon, Int.toNat_of_nonneg hnn]
      rw [List.getD_eq_getElem?_getD, List.getElem?_set_ne (Ne.symm hiz),
        ← List.getD_eq_getElem?_getD, hcell]
      rfl
  · intro hout hlt
    have hlen : st.outsideCellIndex.toNat < (groutScaledCells Grout st).length := by
      unfold groutScaledCells
      simpa using hlt
    unfold ApplyGeneralGrout
    rw [if_neg hnle, if_neg hout]
    rw [List.getD_eq_getElem?_getD, List.getElem?_set_eq_of_lt _ hlen]
    simp only [Option.getD_some]
    unfold groutOutsideRebuilt
    rw [foldl_appendMesh_vertices]
    rfl

/-- Witness for C5 on `cellsC5w` (outside cell at index 1) with `Grout = 1`:
cell 0 is scaled (factor `1/2 ≥ 1e-5`) and the outside cell's vertices are
the concatenation of the scaled non-outside cells' vertices. -/
theorem C5_grout_witness :
    ((ApplyGeneralGrout 1 cellsC5w).cellMeshes.getD 0 (emptyAugMesh 1)
      = (if (Box.maxDim (cellsC5w.cellMeshes.getD 0 (emptyAugMesh 1)).bounds - 1 * (1/2))
              / Box.maxDim (cellsC5w.cellMeshes.getD 0 (emptyAugMesh 1)).bounds
            < zeroTolTimes1000
         then emptyAugMesh 1
         else scaleMeshAbout
            ((Box.maxDim (cellsC5w.cellMeshes.getD 0 (emptyAugMesh 1)).bounds - 1 * (1/2))
              / Box.maxDim (cellsC5w.cellMeshes.getD 0 (emptyAugMesh 1)).bounds)
            (cellsC5w.cellMeshes.getD 0 (emptyAugMesh 1)).vertexCentroid
            (cellsC5w.cellMeshes.getD 0 (emptyAugMesh 1))))
    ∧ ((ApplyGeneralGrout 1 cellsC5w).cellMeshes.getD 1 (emptyAugMesh 1)).vertices
        = (((List.range 2).filter (fun (i : ℕ) => ((i : ℤ) ≠ 1))).map
            (fun i => ((groutScaledCells 1 cellsC5w).getD i (emptyAugMesh 1)).vertices)).flatten :=
  ⟨(C5_grout 1 cellsC5w (by norm_num) (Or.inr (by decide))).1 0 (by decide) (by decide),
   (C5_grout 1 cellsC5w (by norm_num) (Or.inr (by decide))).2 (by decide) (by decide)⟩

theorem set_append_last {α : Type} (l : List α) (d v : α) :
    (l ++ [d]).set l.length v = l ++ [v] := by
  rw [List.set_append]
  simp

/-- Claim C10: `AppendToCollection` with a zero-triangle mesh returns `-1`
and leaves the collection unchanged; with at least one triangle it appends
exactly one Geometry and one Transform entry whose `VertexStart`/`FaceStart`
are the previous vertex/face array lengths, whose `VertexCount`/`FaceCount`
are the (in-place compacted and collision-sampled) mesh's counts, and — when
a parent transform is given — records the new transform as a child of that
parent. -/
theorem C10_append_to_collection (fc : RigidMap) (g : AugMesh → AugMesh)
    (Mesh : AugMesh) (spacing : ℚ) (parentIdx : ℤ) (bn : String)
    (Output : Collection) (imat : ℤ)
    (hvs : Output.vertexStart.length = numGeometry Output)
    (hvc : Output.vertexCount.length = numGeometry Output)
    (hfc : Output.faceCount.length = numGeometry Output) :
    (Mesh.tris = [] →
      AppendToCollection fc g Mesh spacing parentIdx bn Output imat = (-1, Output))
    ∧ (Mesh.tris ≠ [] →
      (AppendToCollection fc g Mesh spacing parentIdx bn Output imat).1
          = (numGeometry Output : ℤ)
      ∧ numGeometry (AppendToCollection fc g Mesh spacing parentIdx bn Output imat).2
          = numGeometry Output + 1
      ∧ numTransforms (AppendToCollection fc g Mesh spacing parentIdx bn Output imat).2
          = numTransforms Output + 1
      ∧ (AppendToCollection fc g Mesh spacing parentIdx bn Output imat).2.vertexStart
          = Output.vertexStart ++ [Output.vertex.length]
      ∧ (AppendToCollection fc g Mesh spacing parentIdx bn Output imat).2.faceStart
          = Output.faceStart ++ [Output.indices.length]
      ∧ (AppendToCollection fc g Mesh spacing parentIdx bn Output imat).2.vertexCount
          = Output.vertexCount ++ [(if 0 < spacing then g Mesh else Mesh).vertices.length]
      ∧ (AppendToCollection fc g Mesh spacing parentIdx bn Output imat).2.faceCount
          = Output.faceCount ++ [(if 0 < spacing then g Mesh else Mesh).tris.length]
      ∧ (-1 < parentIdx → parentIdx.toNat < Output.children.length →
          (AppendToCollection fc g Mesh spacing parentIdx bn Output imat).2.children.getD
              parentIdx.toNat []
            = Output.children.getD parentIdx.toNat [] ++ [numTransforms Output])) := by
  constructor
  · intro h
    unfold AppendToCollection
    rw [if_pos (by rw [h]; rfl)]
  · intro h
    have hlen : ¬ Mesh.tris.length = 0 := by
      simpa [List.length_eq_zero] using h
    unfold AppendToCollection
    rw [if_neg hlen]
    refine ⟨rfl, ?_, ?_, ?_, ?_, ?_, ?_, ?_⟩
    · simp [numGeometry, appendMeshEntry]
    · simp only [appendMeshEntry, numTransforms]
      by_cases hp : -1 < parentIdx
      · rw [if_pos hp]
        simp
      · rw [if_neg hp]
        simp
    · simp only [appendMeshEntry]
      rw [← hvs, set_append_last]
    · simp only [appendMeshEntry, numGeometry]
      rw [set_append_last]
    · simp only [appendMeshEntry]
      rw [← hvc, set_append_last]
    · simp only [appendMeshEntry]
      rw [← hfc, set_append_last]
    · intro hp hlt
      simp only [appendMeshEntry]
      rw [if_pos hp]
      have hlt2 : parentIdx.toNat < (Output.children ++ [[]]).length := by
        simp only [List.length_append, List.length_cons, List.length_nil]
        omega
      rw [List.getD_eq_getElem?_getD, List.getElem?_set_eq_of_lt _ hlt2]
      simp only [Option.getD_some]
      rw [List.getD_append _ _ _ _ hlt]

/-- Witness for C10: appending a zero-triangle mesh to `colC10` is a `-1`
no-op; appending `meshTriXY` as a child of transform 0 creates geometry 1
with `VertexStart = 3` and records transform 1 as a child of transform 0. -/
theorem C10_append_to_collection_witness :
    AppendToCollection ⟨id, id⟩ id (emptyAugMesh 1) 0 0 "x" colC10 1 = (-1, colC10)
    ∧ (AppendToCollection ⟨id, id⟩ id meshTriXY 0 0 "Root_0" colC10 1).1 = 1
    ∧ (AppendToCollection ⟨id, id⟩ id meshTriXY 0 0 "Root_0" colC10 1).2.vertexStart = [0, 3]
    ∧ (AppendToCollection ⟨id, id⟩ id meshTriXY 0 0 "Root_0" colC10 1).2.children.getD 0 []
        = [1] := by
  have h1 := (C10_append_to_collection ⟨id, id⟩ id (emptyAugMesh 1) 0 0 "x" colC10 1
    rfl rfl rfl).1 rfl
  have h2 := (C10_append_to_collection ⟨id, id⟩ id meshTriXY 0 0 "Root_0" colC10 1
    rfl rfl rfl).2 (by with_unfolding_all decide)
  refine ⟨h1, ?_, ?_, ?_⟩
  · exact h2.1
  · exact h2.2.2.2.1
  · have h3 := h2.2.2.2.2.2.2.2 (by norm_num) (by with_unfolding_all decide)
    exact h3

theorem resize_self (u : List Vec2) (n : ℕ) (h : u.length = n) :
    (List.range n).map (fun l => u.getD l ⟨0, 0⟩) = u := by
  apply List.ext_getElem
  · simp [h]
  · intro i h1 h2
    simp only [List.getElem_map, List.getElem_range]
    rw [List.getD_eq_getElem?_getD, List.getElem?_eq_getElem h2]
    rfl

theorem drop_take_writeRange {α : Type} (l : List α) (s : ℕ) (new : List α)
    (h : s ≤ l.length) :
    ((writeRange l s new).drop s).take new.length = new := by
  unfold writeRange
  have hts : (l.take s).length = s := by
    rw [List.length_take]
    omega
  rw [List.append_assoc, List.drop_left' hts, List.take_left]

theorem setNumUVLayers_self (c : Collection)
    (h : ∀ u ∈ c.uvs, u.length = c.numUVLayers) :
    setNumUVLayers c.numUVLayers c = c := by
  unfold setNumUVLayers
  have huv : c.uvs.map (fun u => (List.range c.numUVLayers).map (fun l => u.getD l ⟨0, 0⟩))
      = c.uvs := by
    conv_rhs => rw [← List.map_id c.uvs]
    apply List.map_congr_left
    intro u hu
    exact resize_self u _ (h u hu)
  rw [huv]

/-- Claim C4: `UpdateCollection` returns `false` and leaves the collection's
vertex and face arrays unwritten whenever the replacement mesh's vertex or
triangle count differs from the slot's `VertexCount`/`FaceCount`; when both
counts match it returns `true` and overwrites exactly that slot's ranges
(positions, normals, UVs, tangents, colors, bone map, visibility, material
IDs, offset triangle indices), mapping positions through
`InverseTransformPosition` and vectors through
`InverseTransformVectorNoScale`, and recomputes that slot's bounding box
from the copied vertices.  (Stated for a well-formed collection: per-vertex
UV lists sized to the collection's layer count, the mesh carrying the same
layer count, and the slot's ranges inside the arrays.) -/
theorem C4_update_collection (fc : RigidMap) (Mesh : AugMesh) (g : ℕ)
    (Output : Collection) (imat : ℤ)
    (hwfuv : ∀ u ∈ Output.uvs, u.length = Output.numUVLayers)
    (hnuv : Mesh.numUVLayers = Output.numUVLayers)
    (hrange : Output.vertexStart.getD g 0 + Mesh.vertices.length ≤ Output.vertex.length) :
    ((Output.vertexCount.getD g 0 ≠ Mesh.vertices.length
        ∨ Output.faceCount.getD g 0 ≠ Mesh.tris.length) →
      UpdateCollection fc Mesh g Output imat = (false, Output))
    ∧ ((Output.vertexCount.getD g 0 = Mesh.vertices.length
        ∧ Output.faceCount.getD g 0 = Mesh.tris.length) →
      UpdateCollection fc Mesh g Output imat
        = (true,
           { Output with
             vertex := writeRange Output.vertex (Output.vertexStart.getD g 0)
               (Mesh.vertices.map (fun v => fc.invPos v.pos))
             normal := writeRange Output.normal (Output.vertexStart.getD g 0)
               (Mesh.vertices.map (fun v => fc.invVec v.normal))
             uvs := writeRange Output.uvs (Output.vertexStart.getD g 0)
               (Mesh.vertices.map (uvChannels Mesh.numUVLayers))
             tangentU := writeRange Output.tangentU (Output.vertexStart.getD g 0)
               (Mesh.vertices.map (fun v => fc.invVec v.tangentU))
             tangentV := writeRange Output.tangentV (Output.vertexStart.getD g 0)
               (Mesh.vertices.map (fun v => fc.invVec v.tangentV))
             color := writeRange Output.color (Output.vertexStart.getD g 0)
               (Mesh.vertices.map AugVertex.color)
             boneMap := writeRange Output.boneMap (Output.vertexStart.getD g 0)
               (Mesh.vertices.map (fun _ => Output.transformIndex.getD g 0))
             indices := writeRange Output.indices (Output.faceStart.getD g 0)
               (Mesh.tris.map (fun t =>
                 (t.v0 + Output.vertexStart.getD g 0, t.v1 + Output.vertexStart.getD g 0,
                  t.v2 + Output.vertexStart.getD g 0)))
             materialID := writeRange Output.materialID (Output.faceStart.getD g 0)
               (Mesh.tris.map (fun t =>
                 if t.materialID < 0 then imat else t.materialID))
             visible := writeRange Output.visible (Output.faceStart.getD g 0)
               (Mesh.tris.map AugTri.visible)
             boundingBox :=
               if Output.boundingBox.length ≠ 0
               then Output.boundingBox.set g
                 (boxOfVerts (Mesh.vertices.map (fun v => fc.invPos v.pos)))
               else Output.boundingBox })) := by
  have hO : setNumUVLayers Mesh.numUVLayers Output = Output := by
    rw [hnuv]
    exact setNumUVLayers_self Output hwfuv
  constructor
  · intro hmis
    unfold UpdateCollection
    rw [hO, if_pos hmis]
  · intro hmatch
    unfold UpdateCollection
    rw [hO, if_neg (by push_neg; exact hmatch)]
    dsimp only
    have hdt := drop_take_writeRange Output.vertex (Output.vertexStart.getD g 0)
      (Mesh.vertices.map (fun v => fc.invPos v.pos)) (by omega)
    have hdroptake :
        ((writeRange Output.vertex (Output.vertexStart.getD g 0)
            (Mesh.vertices.map (fun v => fc.invPos v.pos))).drop
              (Output.vertexStart.getD g 0)).take (Output.vertexCount.getD g 0)
          = Mesh.vertices.map (fun v => fc.invPos v.pos) := by
      rw [hmatch.1]
      simpa using hdt
    rw [hdroptake]

/-- Witness for C4 on `colC10` (slot 0 holds 3 vertices / 1 face): updating
with an empty mesh fails and leaves the collection untouched; updating with
the matching `meshTriXY` succeeds and rewrites slot 0's vertex range. -/
theorem C4_update_collection_witness :
    UpdateCollection ⟨id, id⟩ (emptyAugMesh 1) 0 colC10 (-1) = (false, colC10)
    ∧ (UpdateCollection ⟨id, id⟩ meshTriXY 0 colC10 (-1)).1 = true
    ∧ (UpdateCollection ⟨id, id⟩ meshTriXY 0 colC10 (-1)).2.vertex
        = writeRange colC10.vertex 0 (meshTriXY.vertices.map (fun v => v.pos)) := by
  have h1 := (C4_update_collection ⟨id, id⟩ (emptyAugMesh 1) 0 colC10 (-1)
    (by with_unfolding_all decide) rfl (by with_unfolding_all decide)).1
    (Or.inl (by with_unfolding_all decide))
  have h2 := (C4_update_collection ⟨id, id⟩ meshTriXY 0 colC10 (-1)
    (by with_unfolding_all decide) rfl (by with_unfolding_all decide)).2
    ⟨by with_unfolding_all decide, by with_unfolding_all decide⟩
  refine ⟨h1, ?_, ?_⟩
  · rw [h2]
  · rw [h2]
    with_unfolding_all rfl

theorem getD_append_last {α : Type} (l : List α) (v d : α) :
    (l ++ [v]).getD l.length d = v := by
  rw [List.getD_append_right _ _ _ _ le_rfl]
  simp

/-- Case split on `AppendToCollection`: either the mesh is empty and nothing
happens, or exactly one geometry entry with a positive face count is
appended. -/
theorem appendToCollection_cases (fc : RigidMap) (g : AugMesh → AugMesh)
    (Mesh : AugMesh) (spacing : ℚ) (p : ℤ) (bn : String) (out : Collection)
    (imat : ℤ) (hfc : out.faceCount.length = numGeometry out) :
    (Mesh.tris.length = 0
      ∧ AppendToCollection fc g Mesh spacing p bn out imat = (-1, out))
    ∨ (0 < Mesh.tris.length
      ∧ (AppendToCollection fc g Mesh spacing p bn out imat).1 = (numGeometry out : ℤ)
      ∧ numGeometry (AppendToCollection fc g Mesh spacing p bn out imat).2
          = numGeometry out + 1
      ∧ (AppendToCollection fc g Mesh spacing p bn out imat).2.faceCount
          = out.faceCount ++ [(if 0 < spacing then g Mesh else Mesh).tris.length]
      ∧ (AppendToCollection fc g Mesh spacing p bn out imat).2.proximity
          = out.proximity ++ [∅]
      ∧ (AppendToCollection fc g Mesh spacing p bn out imat).2.hasProximity
          = out.hasProximity) := by
  by_cases h : Mesh.tris.length = 0
  · left
    refine ⟨h, ?_⟩
    unfold AppendToCollection
    rw [if_pos h]
  · right
    refine ⟨by omega, ?_⟩
    unfold AppendToCollection
    rw [if_neg h]
    refine ⟨rfl, ?_, ?_, rfl, rfl⟩
    · simp [numGeometry, appendMeshEntry]
    · simp only [appendMeshEntry]
      rw [← hfc, set_append_last]

theorem appendStep_inv (g : AugMesh → AugMesh) (spacing : ℚ) (fc : RigidMap)
    (tIdx : ℕ) (pname : String) (imat : ℤ)
    (hg : ∀ m : AugMesh, m.tris ≠ [] → (g m).tris ≠ [])
    (c0 : Collection) (acc : Collection × ℤ × List (ℕ × ℤ) × ℕ) (item : ℕ × AugMesh)
    (h1 : acc.1.faceCount.length = numGeometry acc.1)
    (h2 : (acc.2.1 = -1 ∧ numGeometry acc.1 = numGeometry c0)
      ∨ (acc.2.1 = (numGeometry c0 : ℤ) ∧ numGeometry c0 < numGeometry acc.1))
    (h3 : ∀ i : ℕ, numGeometry c0 ≤ i → i < numGeometry acc.1 →
      0 < acc.1.faceCount.getD i 0) :
    (appendStep g spacing fc tIdx pname imat acc item).1.faceCount.length
        = numGeometry (appendStep g spacing fc tIdx pname imat acc item).1
    ∧ (((appendStep g spacing fc tIdx pname imat acc item).2.1 = -1
        ∧ numGeometry (appendStep g spacing fc tIdx pname imat acc item).1 = numGeometry c0)
      ∨ ((appendStep g spacing fc tIdx pname imat acc item).2.1 = (numGeometry c0 : ℤ)
        ∧ numGeometry c0 < numGeometry (appendStep g spacing fc tIdx pname imat acc item).1))
    ∧ (∀ i : ℕ, numGeometry c0 ≤ i →
        i < numGeometry (appendStep g spacing fc tIdx pname imat acc item).1 →
        0 < (appendStep g spacing fc tIdx pname imat acc item).1.faceCount.getD i 0) := by
  rcases appendToCollection_cases fc g item.2 spacing (tIdx : ℤ)
      (pname ++ "_" ++ toString acc.2.2.2) acc.1 imat h1 with
    ⟨hempty, heq⟩ | ⟨hpos, hret, hng, hfcl, _, _⟩
  · unfold appendStep
    rw [heq]
    refine ⟨h1, ?_, h3⟩
    rcases h2 with ⟨ha, hb⟩ | ⟨ha, hb⟩
    · left
      exact ⟨by simp [ha], hb⟩
    · right
      exact ⟨by simp [ha], hb⟩
  · have hproc : 0 < (if 0 < spacing then g item.2 else item.2).tris.length := by
      by_cases hs : 0 < spacing
      · rw [if_pos hs]
        have := hg item.2 (by intro hc; rw [hc] at hpos; simp at hpos)
        exact List.length_pos.mpr this
      · rw [if_neg hs]
        exact hpos
    unfold appendStep
    refine ⟨?_, ?_, ?_⟩
    · rw [hfcl, hng]
      simp only [List.length_append, List.length_cons, List.length_nil]
      omega
    · rcases h2 with ⟨ha, hb⟩ | ⟨ha, hb⟩
      · right
        rw [if_pos ha]
        constructor
        · rw [hret, hb]
        · rw [hng]
          omega
      · right
        rw [if_neg (by rw [ha]; exact fun hc => by omega)]
        exact ⟨ha, by rw [hng]; omega⟩
    · intro i hi hilt
      rw [hng] at hilt
      rw [hfcl]
      by_cases hend : i < numGeometry acc.1
      · rw [List.getD_append _ _ _ _ (by omega)]
        exact h3 i hi hend
      · have : i = acc.1.faceCount.length := by omega
        rw [this, getD_append_last]
        exact hproc

theorem appendFoldAux_inv (g : AugMesh → AugMesh) (spacing : ℚ) (fc : RigidMap)
    (tIdx : ℕ) (pname : String) (imat : ℤ)
    (hg : ∀ m : AugMesh, m.tris ≠ [] → (g m).tris ≠ [])
    (c0 : Collection) (items : List (ℕ × AugMesh)) :
    ∀ (acc : Collection × ℤ × List (ℕ × ℤ) × ℕ),
      acc.1.faceCount.length = numGeometry acc.1 →
      ((acc.2.1 = -1 ∧ numGeometry acc.1 = numGeometry c0)
        ∨ (acc.2.1 = (numGeometry c0 : ℤ) ∧ numGeometry c0 < numGeometry acc.1)) →
      (∀ i : ℕ, numGeometry c0 ≤ i → i < numGeometry acc.1 →
        0 < acc.1.faceCount.getD i 0) →
      (items.foldl (appendStep g spacing fc tIdx pname imat) acc).1.faceCount.length
          = numGeometry (items.foldl (appendStep g spacing fc tIdx pname imat) acc).1
      ∧ (((items.foldl (appendStep g spacing fc tIdx pname imat) acc).2.1 = -1
          ∧ numGeometry (items.foldl (appendStep g spacing fc tIdx pname imat) acc).1
              = numGeometry c0)
        ∨ ((items.foldl (appendStep g spacing fc tIdx pname imat) acc).2.1
              = (numGeometry c0 : ℤ)
          ∧ numGeometry c0
              < numGeometry (items.foldl (appendStep g spacing fc tIdx pname imat) acc).1))
      ∧ (∀ i : ℕ, numGeometry c0 ≤ i →
          i < numGeometry (items.foldl (appendStep g spacing fc tIdx pname imat) acc).1 →
          0 < (items.foldl (appendStep g spacing fc tIdx pname imat) acc).1.faceCount.getD i 0) := by
  induction items with
  | nil => intro acc h1 h2 h3; exact ⟨h1, h2, h3⟩
  | cons item rest ih =>
      intro acc h1 h2 h3
      have hstep := appendStep_inv g spacing fc tIdx pname imat hg c0 acc item h1 h2 h3
      simpa using ih (appendStep g spacing fc tIdx pname imat acc item)
        hstep.1 hstep.2.1 hstep.2.2

theorem appendFold_inv (g : AugMesh → AugMesh) (spacing : ℚ) (fc : RigidMap)
    (tIdx : ℕ) (pname : String) (imat : ℤ)
    (hg : ∀ m : AugMesh, m.tris ≠ [] → (g m).tris ≠ [])
    (c0 : Collection) (items : List (ℕ × AugMesh)) (col : Collection) (fi : ℤ)
    (h1 : col.faceCount.length = numGeometry col)
    (h2 : (fi = -1 ∧ numGeometry col = numGeometry c0)
      ∨ (fi = (numGeometry c0 : ℤ) ∧ numGeometry c0 < numGeometry col))
    (h3 : ∀ i : ℕ, numGeometry c0 ≤ i → i < numGeometry col →
      0 < col.faceCount.getD i 0) :
    (appendFold g spacing fc tIdx pname imat items col fi).1.faceCount.length
        = numGeometry (appendFold g spacing fc tIdx pname imat items col fi).1
    ∧ (((appendFold g spacing fc tIdx pname imat items col fi).2.1 = -1
        ∧ numGeometry (appendFold g spacing fc tIdx pname imat items col fi).1
            = numGeometry c0)
      ∨ ((appendFold g spacing fc tIdx pname imat items col fi).2.1 = (numGeometry c0 : ℤ)
        ∧ numGeometry c0 < numGeometry (appendFold g spacing fc tIdx pname imat items col fi).1))
    ∧ (∀ i : ℕ, numGeometry c0 ≤ i →
        i < numGeometry (appendFold g spacing fc tIdx pname imat items col fi).1 →
        0 < (appendFold g spacing fc tIdx pname imat items col fi).1.faceCount.getD i 0) :=
  appendFoldAux_inv g spacing fc tIdx pname imat hg c0 items (col, fi, [], 0) h1 h2 h3

theorem cellCutSurfaceStep_inv (g : AugMesh → AugMesh)
    (split : AugMesh → Option (List AugMesh)) (isNbrGeom : ℤ → ℤ → Bool)
    (numCells : ℕ) (outsideCellIndex : ℤ) (CellConnectivity : List (ℤ × ℤ))
    (bSetDefault : Bool) (globalMatID : ℤ) (spacing : ℚ)
    (results : List (Option AugMesh)) (surf : MeshDataM)
    (hg : ∀ m : AugMesh, m.tris ≠ [] → (g m).tris ≠ [])
    (c0 : Collection) (st : CutState) (h : StepInv c0 st) :
    StepInv c0 (cellCutSurfaceStep g split isNbrGeom numCells outsideCellIndex
      CellConnectivity bSetDefault globalMatID spacing results surf st) := by
  unfold cellCutSurfaceStep
  by_cases hc : 1 < nonEmptyCount results
  · rw [if_pos hc]
    dsimp only
    obtain ⟨h1, h2, h3⟩ := h
    have hap := appendFold_inv g spacing surf.fromCollection surf.transformIndex
      (st.col.boneName.getD surf.transformIndex "")
      (if bSetDefault
        then GetDefaultMaterialIDForGeometryInCollection st.col
          (st.col.transformToGeometryIndex.getD surf.transformIndex (-1))
        else globalMatID)
      hg c0 (cellIslands split numCells results) st.col st.firstIdx h1 h2 h3
    by_cases hp : st.col.hasProximity
    · rw [if_pos hp]
      exact ⟨hap.1, hap.2.1, hap.2.2⟩
    · rw [if_neg hp]
      exact ⟨hap.1, hap.2.1, hap.2.2⟩
  · rw [if_neg hc]
    exact h

theorem cutDriverFold_inv (g : AugMesh → AugMesh)
    (split : AugMesh → Option (List AugMesh)) (isNbrGeom : ℤ → ℤ → Bool)
    (numCells : ℕ) (outsideCellIndex : ℤ) (CellConnectivity : List (ℤ × ℤ))
    (bSetDefault : Bool) (globalMatID : ℤ) (spacing : ℚ)
    (booleanResult : ℕ → ℕ → Option AugMesh)
    (hg : ∀ m : AugMesh, m.tris ≠ [] → (g m).tris ≠ [])
    (c0 : Collection) (l : List (ℕ × MeshDataM)) :
    ∀ st : CutState, StepInv c0 st →
      StepInv c0 (l.foldl (fun st2 pr =>
        cellCutSurfaceStep g split isNbrGeom numCells outsideCellIndex CellConnectivity
          bSetDefault globalMatID spacing
          ((List.range numCells).map (booleanResult pr.1)) pr.2 st2) st) := by
  induction l with
  | nil => intro st h; exact h
  | cons pr rest ih =>
      intro st h
      exact ih _ (cellCutSurfaceStep_inv g split isNbrGeom numCells outsideCellIndex
        CellConnectivity bSetDefault globalMatID spacing
        ((List.range numCells).map (booleanResult pr.1)) pr.2 hg c0 st h)

theorem setGeometryVisibility_fields (b : Bool) (idxs : List ℤ) :
    ∀ c : Collection,
      (SetGeometryVisibility c idxs b).faceStart = c.faceStart
      ∧ (SetGeometryVisibility c idxs b).faceCount = c.faceCount
      ∧ (SetGeometryVisibility c idxs b).proximity = c.proximity
      ∧ (SetGeometryVisibility c idxs b).hasProximity = c.hasProximity := by
  induction idxs with
  | nil => intro c; exact ⟨rfl, rfl, rfl, rfl⟩
  | cons i rest ih =>
      intro c
      unfold SetGeometryVisibility at ih ⊢
      rw [List.foldl_cons]
      by_cases hi : (0 : ℤ) ≤ i
      · rw [if_pos hi]
        exact ih (SetVisibility c i.toNat b)
      · rw [if_neg hi]
        exact ih c

/-- Claim C2: `CutWithCellMeshes` returns `-1` exactly when no new geometry
entry was appended to the collection, and otherwise returns the geometry
index of the first newly created entry (the geometry count before the cut,
since entries are only ever appended and, with the compile-time
`bRemoveOldGeometry = false` policy, never removed).  The boundary
operations return this value unchanged. -/
theorem C2_first_new_geometry_index (g : AugMesh → AugMesh)
    (split : AugMesh → Option (List AugMesh)) (isNbrGeom : ℤ → ℤ → Bool)
    (numCells : ℕ) (outsideCellIndex : ℤ) (CellConnectivity : List (ℤ × ℤ))
    (bSetDefault : Bool) (globalMatID : ℤ) (spacing : ℚ)
    (booleanResult : ℕ → ℕ → Option AugMesh) (Meshes : List MeshDataM)
    (col0 : Collection)
    (hg : ∀ m : AugMesh, m.tris ≠ [] → (g m).tris ≠ [])
    (hwf : col0.faceCount.length = numGeometry col0) :
    ((CutWithCellMeshes g split isNbrGeom numCells outsideCellIndex CellConnectivity
        bSetDefault globalMatID spacing booleanResult Meshes col0).1 = -1
      ↔ numGeometry (CutWithCellMeshes g split isNbrGeom numCells outsideCellIndex
          CellConnectivity bSetDefault globalMatID spacing booleanResult Meshes col0).2
        = numGeometry col0)
    ∧ ((CutWithCellMeshes g split isNbrGeom numCells outsideCellIndex CellConnectivity
        bSetDefault globalMatID spacing booleanResult Meshes col0).1 ≠ -1 →
      (CutWithCellMeshes g split isNbrGeom numCells outsideCellIndex CellConnectivity
        bSetDefault globalMatID spacing booleanResult Meshes col0).1
        = (numGeometry col0 : ℤ)) := by
  have hfin := cutDriverFold_inv g split isNbrGeom numCells outsideCellIndex
    CellConnectivity bSetDefault globalMatID spacing booleanResult hg col0
    Meshes.enum ⟨col0, -1, []⟩
    ⟨hwf, Or.inl ⟨rfl, rfl⟩, by
      intro i h1 h2
      dsimp only at h2
      omega⟩
  unfold CutWithCellMeshes
  dsimp only
  set F := Meshes.enum.foldl (fun st2 pr =>
    cellCutSurfaceStep g split isNbrGeom numCells outsideCellIndex CellConnectivity
      bSetDefault globalMatID spacing
      ((List.range numCells).map (booleanResult pr.1)) pr.2 st2) ⟨col0, -1, []⟩ with hF
  have hnum : numGeometry (if F.geometryForRemoval.length ≠ 0
      then SetGeometryVisibility F.col F.geometryForRemoval false else F.col)
      = numGeometry F.col := by
    by_cases hr : F.geometryForRemoval.length ≠ 0
    · rw [if_pos hr]
      unfold numGeometry
      rw [(setGeometryVisibility_fields false F.geometryForRemoval F.col).1]
    · rw [if_neg hr]
  rcases hfin.2.1 with ⟨ha, hb⟩ | ⟨ha, hb⟩
  · constructor
    · rw [ha, hnum, hb]
      simp
    · intro hne
      exact absurd ha hne
  · have hcast : (0 : ℤ) ≤ (numGeometry col0 : ℤ) := Int.natCast_nonneg _
    constructor
    · rw [ha, hnum]
      constructor
      · intro hcontra
        omega
      · intro hcount
        omega
    · intro _
      exact ha

theorem getD_setVisRange_outside (start cnt : ℕ) (b : Bool) (vis : List Bool)
    (f : ℕ) (d : Bool) (h : f < start ∨ start + cnt ≤ f) :
    (setVisRange start cnt b vis).getD f d = vis.getD f d := by
  unfold setVisRange
  by_cases hf : f < vis.length
  · have hf2 : f < (vis.mapIdx (fun i v =>
        if start ≤ i ∧ i < start + cnt then b else v)).length := by
      rw [List.length_mapIdx]
      exact hf
    rw [List.getD_eq_getElem?_getD, List.getElem?_eq_getElem hf2,
      List.getD_eq_getElem?_getD, List.getElem?_eq_getElem hf]
    simp only [Option.getD_some]
    rw [List.getElem_mapIdx]
    rw [if_neg (by omega)]
  · rw [List.getD_eq_getElem?_getD, List.getD_eq_getElem?_getD,
      List.getElem?_eq_none (by rw [List.length_mapIdx]; omega),
      List.getElem?_eq_none (by omega)]

theorem setGeometryVisibility_outside (b : Bool) (f : ℕ) (d : Bool)
    (idxs : List ℤ) :
    ∀ c : Collection,
      (∀ gi ∈ idxs, 0 ≤ gi →
        (f < c.faceStart.getD gi.toNat 0
          ∨ c.faceStart.getD gi.toNat 0 + c.faceCount.getD gi.toNat 0 ≤ f)) →
      (SetGeometryVisibility c idxs b).visible.getD f d = c.visible.getD f d := by
  induction idxs with
  | nil => intro c _; rfl
  | cons i rest ih =>
      intro c hout
      unfold SetGeometryVisibility
      rw [List.foldl_cons]
      by_cases hi : (0 : ℤ) ≤ i
      · rw [if_pos hi]
        have hstep : (SetVisibility c i.toNat b).visible.getD f d
            = c.visible.getD f d := by
          unfold SetVisibility
          exact getD_setVisRange_outside _ _ _ _ _ _
            (hout i (List.mem_cons_self i rest) hi)
        have hrest := ih (SetVisibility c i.toNat b) (by
          intro gi hgi hginn
          exact hout gi (List.mem_cons_of_mem i hgi) hginn)
        unfold SetGeometryVisibility at hrest
        rw [hrest, hstep]
      · rw [if_neg hi]
        have hrest := ih c (fun gi hgi hginn =>
          hout gi (List.mem_cons_of_mem i hgi) hginn)
        unfold SetGeometryVisibility at hrest
        rw [hrest]

/-- Witness for C2 on a one-piece collection cut into two cells (both
boolean results non-empty): the returned index is `1 = numGeometry colC10`,
consistent with the characterisation. -/
theorem C2_first_new_geometry_index_witness :
    ((CutWithCellMeshes (id : AugMesh → AugMesh) (fun _ => none) (fun _ _ => false)
        2 (-1) [(0, 1)] false 1 0 (fun _ _ => some meshTriXY)
        [⟨meshTriXY, 0, ⟨id, id⟩⟩] colC10).1 = -1
      ↔ numGeometry (CutWithCellMeshes (id : AugMesh → AugMesh) (fun _ => none)
          (fun _ _ => false) 2 (-1) [(0, 1)] false 1 0 (fun _ _ => some meshTriXY)
          [⟨meshTriXY, 0, ⟨id, id⟩⟩] colC10).2 = numGeometry colC10)
    ∧ (CutWithCellMeshes (id : AugMesh → AugMesh) (fun _ => none) (fun _ _ => false)
        2 (-1) [(0, 1)] false 1 0 (fun _ _ => some meshTriXY)
        [⟨meshTriXY, 0, ⟨id, id⟩⟩] colC10).1 = 1 := by
  have h := C2_first_new_geometry_index (id : AugMesh → AugMesh) (fun _ => none)
    (fun _ _ => false) 2 (-1) [(0, 1)] false 1 0 (fun _ _ => some meshTriXY)
    [⟨meshTriXY, 0, ⟨id, id⟩⟩] colC10 (fun _ hm => hm) rfl
  exact ⟨h.1, by with_unfolding_all decide⟩

/-- Claim C1: (i) a piece whose boolean branches yield fewer than 2
non-empty meshes is left completely untouched by the cell-cut surface step
(no append, no visibility change, no removal entry, no proximity write);
(ii) likewise the multi-plane per-piece step is the identity when either of
its two boolean branches is empty; (iii) every geometry entry the driver
appends has at least one face — zero-triangle boolean results or islands
are never appended; (iv) the final visibility pass writes only inside the
face ranges of the geometry marked for removal. -/
theorem C1_undercut_pieces_untouched :
    (∀ (g : AugMesh → AugMesh) (split : AugMesh → Option (List AugMesh))
        (isNbrGeom : ℤ → ℤ → Bool) (numCells : ℕ) (outsideCellIndex : ℤ)
        (CellConnectivity : List (ℤ × ℤ)) (bSetDefault : Bool) (globalMatID : ℤ)
        (spacing : ℚ) (results : List (Option AugMesh)) (surf : MeshDataM)
        (st : CutState),
      nonEmptyCount results < 2 →
      cellCutSurfaceStep g split isNbrGeom numCells outsideCellIndex CellConnectivity
        bSetDefault globalMatID spacing results surf st = st)
    ∧ (∀ (split : AugMesh → Option (List AugMesh)) (isNbr : ℕ → ℕ → Bool)
        (bHP : Bool) (toCutIdx : ℕ) (r0 r1 : AugMesh) (st : MPState),
      r0.tris.length = 0 ∨ r1.tris.length = 0 →
      multiPlaneCutStep split isNbr bHP toCutIdx r0 r1 st = st)
    ∧ (∀ (g : AugMesh → AugMesh) (split : AugMesh → Option (List AugMesh))
        (isNbrGeom : ℤ → ℤ → Bool) (numCells : ℕ) (outsideCellIndex : ℤ)
        (CellConnectivity : List (ℤ × ℤ)) (bSetDefault : Bool) (globalMatID : ℤ)
        (spacing : ℚ) (booleanResult : ℕ → ℕ → Option AugMesh)
        (Meshes : List MeshDataM) (col0 : Collection),
      (∀ m : AugMesh, m.tris ≠ [] → (g m).tris ≠ []) →
      col0.faceCount.length = numGeometry col0 →
      ∀ i : ℕ, numGeometry col0 ≤ i →
        i < numGeometry (CutWithCellMeshes g split isNbrGeom numCells outsideCellIndex
          CellConnectivity bSetDefault globalMatID spacing booleanResult Meshes col0).2 →
        0 < (CutWithCellMeshes g split isNbrGeom numCells outsideCellIndex
          CellConnectivity bSetDefault globalMatID spacing booleanResult Meshes
          col0).2.faceCount.getD i 0)
    ∧ (∀ (c : Collection) (idxs : List ℤ) (b : Bool) (f : ℕ) (d : Bool),
      (∀ gi ∈ idxs, 0 ≤ gi →
        (f < c.faceStart.getD gi.toNat 0
          ∨ c.faceStart.getD gi.toNat 0 + c.faceCount.getD gi.toNat 0 ≤ f)) →
      (SetGeometryVisibility c idxs b).visible.getD f d = c.visible.getD f d) := by
  refine ⟨?_, ?_, ?_, ?_⟩
  · intro g split isNbrGeom numCells outsideCellIndex CellConnectivity bSetDefault
      globalMatID spacing results surf st h
    unfold cellCutSurfaceStep
    rw [if_neg (by omega)]
  · intro split isNbr bHP toCutIdx r0 r1 st h
    unfold multiPlaneCutStep
    rw [if_pos h]
  · intro g split isNbrGeom numCells outsideCellIndex CellConnectivity bSetDefault
      globalMatID spacing booleanResult Meshes col0 hg hwf i h1 h2
    have hfin := cutDriverFold_inv g split isNbrGeom numCells outsideCellIndex
      CellConnectivity bSetDefault globalMatID spacing booleanResult hg col0
      Meshes.enum ⟨col0, -1, []⟩
      ⟨hwf, Or.inl ⟨rfl, rfl⟩, by
        intro j hj1 hj2
        dsimp only at hj2
        omega⟩
    unfold CutWithCellMeshes at h2 ⊢
    dsimp only at h2 ⊢
    set F := Meshes.enum.foldl (fun st2 pr =>
      cellCutSurfaceStep g split isNbrGeom numCells outsideCellIndex CellConnectivity
        bSetDefault globalMatID spacing
        ((List.range numCells).map (booleanResult pr.1)) pr.2 st2)
      ⟨col0, -1, []⟩ with hF
    by_cases hr : F.geometryForRemoval.length ≠ 0
    · rw [if_pos hr] at h2 ⊢
      have hfields := setGeometryVisibility_fields false F.geometryForRemoval F.col
      rw [hfields.2.1]
      have hnum : numGeometry (SetGeometryVisibility F.col F.geometryForRemoval false)
          = numGeometry F.col := by
        unfold numGeometry
        rw [hfields.1]
      rw [hnum] at h2
      exact hfin.2.2 i h1 h2
    · rw [if_neg hr] at h2 ⊢
      exact hfin.2.2 i h1 h2
  · intro c idxs b f d hout
    exact setGeometryVisibility_outside b f d idxs c hout

/-- Witness for C1: a surface whose two boolean branches include an empty
mesh is untouched by the step; the multi-plane step with an empty branch is
the identity; in the C2 witness cut, the appended entries (indices 1, 2)
have positive face counts; and hiding geometry 0 of `colC10` leaves face 5
(outside its range) untouched. -/
theorem C1_undercut_pieces_untouched_witness :
    cellCutSurfaceStep (id : AugMesh → AugMesh) (fun _ => none) (fun _ _ => false)
      2 (-1) [(0, 1)] false 1 0 [some meshTriXY, some (emptyAugMesh 1)]
      ⟨meshTriXY, 0, ⟨id, id⟩⟩ ⟨colC10, -1, []⟩ = ⟨colC10, -1, []⟩
    ∧ multiPlaneCutStep (fun _ => none) (fun _ _ => false) true 0 meshTriXY
        (emptyAugMesh 1) ⟨[⟨meshTriXY, 0, ⟨id, id⟩⟩], []⟩
      = ⟨[⟨meshTriXY, 0, ⟨id, id⟩⟩], []⟩
    ∧ 0 < (CutWithCellMeshes (id : AugMesh → AugMesh) (fun _ => none)
        (fun _ _ => false) 2 (-1) [(0, 1)] false 1 0 (fun _ _ => some meshTriXY)
        [⟨meshTriXY, 0, ⟨id, id⟩⟩] colC10).2.faceCount.getD 1 0
    ∧ (SetGeometryVisibility colC10 [0] false).visible.getD 5 false
        = colC10.visible.getD 5 false := by
  have h := C1_undercut_pieces_untouched
  refine ⟨?_, ?_, ?_, ?_⟩
  · exact h.1 (id : AugMesh → AugMesh) (fun _ => none) (fun _ _ => false) 2 (-1)
      [(0, 1)] false 1 0 [some meshTriXY, some (emptyAugMesh 1)]
      ⟨meshTriXY, 0, ⟨id, id⟩⟩ ⟨colC10, -1, []⟩ (by with_unfolding_all decide)
  · exact h.2.1 (fun _ => none) (fun _ _ => false) true 0 meshTriXY (emptyAugMesh 1)
      ⟨[⟨meshTriXY, 0, ⟨id, id⟩⟩], []⟩ (Or.inr rfl)
  · exact h.2.2.1 (id : AugMesh → AugMesh) (fun _ => none) (fun _ _ => false) 2 (-1)
      [(0, 1)] false 1 0 (fun _ _ => some meshTriXY) [⟨meshTriXY, 0, ⟨id, id⟩⟩]
      colC10 (fun _ hm => hm) rfl 1 (by with_unfolding_all decide)
      (by with_unfolding_all decide)
  · exact h.2.2.2 colC10 [0] false 5 false (by with_unfolding_all decide)

theorem countSym_proxLink (P : List (ℕ × ℕ)) (A B : ℕ) (h : countSym P) :
    countSym (proxLink P A B) := by
  intro a b
  unfold proxLink
  rw [List.count_append, List.count_append, h a b]
  congr 1
  simp only [List.count_cons, List.count_nil, beq_iff_eq, Prod.mk.injEq]
  split_ifs <;> omega

theorem countSym_proxUnlink (P : List (ℕ × ℕ)) (A B : ℕ) (h : countSym P) :
    countSym (proxUnlink P A B) := by
  intro a b
  unfold proxUnlink
  rw [List.count_erase, List.count_erase, List.count_erase, List.count_erase,
    h a b, Nat.sub_sub, Nat.sub_sub]
  congr 1
  simp only [beq_iff_eq, Prod.mk.injEq]
  split_ifs <;> omega

theorem countSym_foldl {β : Type} (f : List (ℕ × ℕ) → β → List (ℕ × ℕ))
    (hf : ∀ P x, countSym P → countSym (f P x)) (l : List β) :
    ∀ P, countSym P → countSym (l.foldl f P) := by
  induction l with
  | nil => intro P h; exact h
  | cons x rest ih => intro P h; exact ih (f P x) (hf P x h)

theorem multiPlaneCutStep_countSym (split : AugMesh → Option (List AugMesh))
    (isNbr : ℕ → ℕ → Bool) (bHP : Bool) (toCutIdx : ℕ) (r0 r1 : AugMesh)
    (st : MPState) (h : countSym st.prox) :
    countSym (multiPlaneCutStep split isNbr bHP toCutIdx r0 r1 st).prox := by
  unfold multiPlaneCutStep
  by_cases hemp : r0.tris.length = 0 ∨ r1.tris.length = 0
  · rw [if_pos hemp]
    exact h
  · rw [if_neg hemp]
    dsimp only
    by_cases hp : bHP = true
    · rw [if_pos hp]
      split_ifs with hlen
      · apply countSym_proxLink
        refine countSym_foldl _ ?_ _ _ h
        intro P nbr hP
        refine countSym_foldl _ ?_ _ _ (countSym_proxUnlink P toCutIdx nbr hP)
        intro P2 ri hP2
        split_ifs with hn
        · exact countSym_proxLink P2 ri nbr hP2
        · exact hP2
      · refine countSym_foldl _ ?_ _ _ ?_
        · intro P i hP
          refine countSym_foldl _ ?_ _ _ hP
          intro P2 j hP2
          split_ifs with hcond
          · exact countSym_proxLink _ _ _ hP2
          · exact hP2
        · refine countSym_foldl _ ?_ _ _ h
          intro P nbr hP
          refine countSym_foldl _ ?_ _ _ (countSym_proxUnlink P toCutIdx nbr hP)
          intro P2 ri hP2
          split_ifs with hn
          · exact countSym_proxLink P2 ri nbr hP2
          · exact hP2
    · rw [if_neg hp]
      exact h

theorem length_proxInsert (p : List (Finset ℤ)) (a v : ℤ) :
    (proxInsert p a v).length = p.length := by
  unfold proxInsert
  split_ifs <;> simp

theorem getD_proxInsert (p : List (Finset ℤ)) (a v : ℤ) (i : ℕ) (hi : i < p.length) :
    (proxInsert p a v).getD i ∅
      = if 0 ≤ a ∧ i = a.toNat then insert v (p.getD i ∅) else p.getD i ∅ := by
  unfold proxInsert
  by_cases ha : (0 : ℤ) ≤ a
  · rw [if_pos ha]
    by_cases hia : i = a.toNat
    · rw [if_pos ⟨ha, hia⟩]
      subst hia
      rw [List.getD_eq_getElem?_getD, List.getElem?_set_eq_of_lt _ hi]
      rfl
    · rw [if_neg (by tauto)]
      rw [List.getD_eq_getElem?_getD, List.getElem?_set_ne (by omega),
        ← List.getD_eq_getElem?_getD]
  · rw [if_neg ha, if_neg (by tauto)]

theorem mem_getD_proxInsert (p : List (Finset ℤ)) (a v : ℤ) (i : ℕ) (x : ℤ)
    (hi : i < p.length) :
    x ∈ (proxInsert p a v).getD i ∅
      ↔ x ∈ p.getD i ∅ ∨ (0 ≤ a ∧ i = a.toNat ∧ x = v) := by
  rw [getD_proxInsert p a v i hi]
  by_cases hc : (0 : ℤ) ≤ a ∧ i = a.toNat
  · rw [if_pos hc, Finset.mem_insert]
    constructor
    · rintro (hx | hx)
      · right; exact ⟨hc.1, hc.2, hx⟩
      · left; exact hx
    · rintro (hx | ⟨_, _, hx⟩)
      · right; exact hx
      · left; exact hx
  · rw [if_neg hc]
    constructor
    · intro hx; left; exact hx
    · rintro (hx | ⟨h1, h2, _⟩)
      · exact hx
      · exact absurd ⟨h1, h2⟩ hc

theorem proxInsert_pair_memSymm (p : List (Finset ℤ)) (a b : ℤ) (h : memSymm p) :
    memSymm (proxInsert (proxInsert p a b) b a) := by
  intro i j hi hj
  rw [length_proxInsert, length_proxInsert] at hi hj
  have hi1 : i < (proxInsert p a b).length := by rw [length_proxInsert]; exact hi
  have hj1 : j < (proxInsert p a b).length := by rw [length_proxInsert]; exact hj
  rw [mem_getD_proxInsert _ _ _ _ _ hi1, mem_getD_proxInsert _ _ _ _ _ hj1,
    mem_getD_proxInsert _ _ _ _ _ hi, mem_getD_proxInsert _ _ _ _ _ hj]
  have hbase := h i j hi hj
  constructor
  · rintro ((hx | ⟨h1, h2, h3⟩) | ⟨h1, h2, h3⟩)
    · left; left; exact hbase.mp hx
    · right
      refine ⟨?_, ?_, ?_⟩ <;> omega
    · left; right
      refine ⟨?_, ?_, ?_⟩ <;> omega
  · rintro ((hx | ⟨h1, h2, h3⟩) | ⟨h1, h2, h3⟩)
    · left; left; exact hbase.mpr hx
    · right
      refine ⟨?_, ?_, ?_⟩ <;> omega
    · left; right
      refine ⟨?_, ?_, ?_⟩ <;> omega

theorem memSymm_foldl {β : Type} (f : List (Finset ℤ) → β → List (Finset ℤ))
    (hf : ∀ pr x, memSymm pr → memSymm (f pr x)) (l : List β) :
    ∀ pr, memSymm pr → memSymm (l.foldl f pr) := by
  induction l with
  | nil => intro pr h; exact h
  | cons x rest ih => intro pr h; exact ih (f pr x) (hf pr x h)

theorem proximityPlaneStep_memSymm (isNbrGeom : ℤ → ℤ → Bool)
    (CellConnectivity : List (ℤ × ℤ)) (outsideCellIndex : ℤ)
    (cellToGeom : List (ℕ × ℤ)) (prox : List (Finset ℤ)) (p : ℤ)
    (h : memSymm prox) :
    memSymm (proximityPlaneStep isNbrGeom CellConnectivity outsideCellIndex
      cellToGeom prox p) := by
  unfold proximityPlaneStep
  by_cases h1 : (if (CellConnectivity.getD p.toNat (0, 0)).2 < 0 then outsideCellIndex
      else (CellConnectivity.getD p.toNat (0, 0)).2) = -1
  · rw [if_pos h1]
    exact h
  · rw [if_neg h1]
    dsimp only
    split_ifs <;>
      first
        | exact h
        | exact proxInsert_pair_memSymm _ _ _ h
        | (refine memSymm_foldl _ ?_ _ _ h
           intro pr a hpr
           refine memSymm_foldl _ ?_ _ _ hpr
           intro pr2 b hpr2
           split_ifs with hn
           · exact proxInsert_pair_memSymm pr2 a b hpr2
           · exact hpr2)

theorem length_writeProximity (toGeom : ℕ → ℤ) (P : List (ℕ × ℕ)) :
    ∀ prox : List (Finset ℤ),
      (writeProximityFromMultimap toGeom P prox).length = prox.length := by
  induction P with
  | nil => intro prox; rfl
  | cons q rest ih =>
      intro prox
      unfold writeProximityFromMultimap at ih ⊢
      rw [List.foldl_cons, ih, length_proxInsert]

theorem mem_getD_writeProximity (toGeom : ℕ → ℤ) (P : List (ℕ × ℕ)) :
    ∀ (prox : List (Finset ℤ)) (i : ℕ) (x : ℤ), i < prox.length →
      (x ∈ (writeProximityFromMultimap toGeom P prox).getD i ∅
        ↔ x ∈ prox.getD i ∅
          ∨ ∃ pr ∈ P, 0 ≤ toGeom pr.1 ∧ (toGeom pr.1).toNat = i ∧ toGeom pr.2 = x) := by
  induction P with
  | nil =>
      intro prox i x _
      simp [writeProximityFromMultimap]
  | cons q rest ih =>
      intro prox i x hi
      unfold writeProximityFromMultimap at ih ⊢
      rw [List.foldl_cons]
      have hlen : i < (proxInsert prox (toGeom q.1) (toGeom q.2)).length := by
        rw [length_proxInsert]
        exact hi
      rw [ih _ i x hlen, mem_getD_proxInsert _ _ _ _ _ hi]
      constructor
      · rintro ((hx | ⟨hs, hti, hv⟩) | ⟨pr, hpr, hh⟩)
        · left; exact hx
        · right
          exact ⟨q, List.mem_cons_self q rest, hs, hti.symm, hv.symm⟩
        · right
          exact ⟨pr, List.mem_cons_of_mem q hpr, hh⟩
      · rintro (hx | ⟨pr, hpr, h1, h2, h3⟩)
        · left; left; exact hx
        · rcases List.mem_cons.mp hpr with heq | hrest
          · left; right
            rw [← heq]
            exact ⟨h1, h2.symm, h3.symm⟩
          · right
            exact ⟨pr, hrest, h1, h2, h3⟩

theorem writeProximity_memSymm (toGeom : ℕ → ℤ) (P : List (ℕ × ℕ))
    (prox : List (Finset ℤ)) (hP : countSym P) (hprox : memSymm prox) :
    memSymm (writeProximityFromMultimap toGeom P prox) := by
  have hmemP : ∀ a b : ℕ, (a, b) ∈ P ↔ (b, a) ∈ P := by
    intro a b
    rw [← List.count_pos_iff, ← List.count_pos_iff, hP a b]
  intro i j hi hj
  rw [length_writeProximity] at hi hj
  rw [mem_getD_writeProximity _ _ _ _ _ hi, mem_getD_writeProximity _ _ _ _ _ hj]
  constructor
  · rintro (hx | ⟨pr, hpr, h1, h2, h3⟩)
    · left; exact (hprox i j hi hj).mp hx
    · right
      refine ⟨(pr.2, pr.1), (hmemP pr.1 pr.2).mp hpr, ?_, ?_, ?_⟩ <;>
        simp only at * <;> omega
  · rintro (hx | ⟨pr, hpr, h1, h2, h3⟩)
    · left; exact (hprox i j hi hj).mpr hx
    · right
      refine ⟨(pr.2, pr.1), (hmemP pr.1 pr.2).mp hpr, ?_, ?_, ?_⟩ <;>
        simp only at * <;> omega

theorem applyProximityStage_memSymm (isNbrGeom : ℤ → ℤ → Bool)
    (CellConnectivity : List (ℤ × ℤ)) (outsideCellIndex : ℤ) (planes : List ℤ)
    (cellToGeom : List (ℕ × ℤ)) (col : Collection) (h : memSymm col.proximity) :
    memSymm (applyProximityStage isNbrGeom CellConnectivity outsideCellIndex
      planes cellToGeom col).proximity := by
  unfold applyProximityStage
  refine memSymm_foldl _ ?_ _ _ h
  intro pr x hpr
  exact proximityPlaneStep_memSymm isNbrGeom CellConnectivity outsideCellIndex
    cellToGeom pr x hpr

/-- Claim C3: proximity symmetry.  (i) `ProxLink`/`ProxUnlink` add and
remove multimap entries in mirrored pairs, preserving count-level symmetry;
(ii) the whole per-piece multi-plane step preserves it; (iii) the final
translation of the symmetric multimap into the collection's `Proximity`
attribute preserves membership symmetry (`A ∈ Proximity(B)` iff
`B ∈ Proximity(A)`); (iv) the `CutWithCellMeshes` per-plane proximity stage
writes only mirrored pairs and preserves membership symmetry. -/
theorem C3_proximity_symmetry :
    (∀ (P : List (ℕ × ℕ)) (A B : ℕ), countSym P →
      countSym (proxLink P A B) ∧ countSym (proxUnlink P A B))
    ∧ (∀ (split : AugMesh → Option (List AugMesh)) (isNbr : ℕ → ℕ → Bool)
        (bHP : Bool) (toCutIdx : ℕ) (r0 r1 : AugMesh) (st : MPState),
      countSym st.prox →
      countSym (multiPlaneCutStep split isNbr bHP toCutIdx r0 r1 st).prox)
    ∧ (∀ (toGeom : ℕ → ℤ) (P : List (ℕ × ℕ)) (prox : List (Finset ℤ)),
      countSym P → memSymm prox →
      memSymm (writeProximityFromMultimap toGeom P prox))
    ∧ (∀ (isNbrGeom : ℤ → ℤ → Bool) (CellConnectivity : List (ℤ × ℤ))
        (outsideCellIndex : ℤ) (planes : List ℤ) (cellToGeom : List (ℕ × ℤ))
        (col : Collection),
      memSymm col.proximity →
      memSymm (applyProximityStage isNbrGeom CellConnectivity outsideCellIndex
        planes cellToGeom col).proximity) :=
  ⟨fun P A B h => ⟨countSym_proxLink P A B h, countSym_proxUnlink P A B h⟩,
   fun split isNbr bHP toCutIdx r0 r1 st h =>
     multiPlaneCutStep_countSym split isNbr bHP toCutIdx r0 r1 st h,
   fun toGeom P prox hP hprox => writeProximity_memSymm toGeom P prox hP hprox,
   fun isNbrGeom CellConnectivity outsideCellIndex planes cellToGeom col h =>
     applyProximityStage_memSymm isNbrGeom CellConnectivity outsideCellIndex
       planes cellToGeom col h⟩

/-- Witness for C3 at concrete inputs: a link on the empty multimap, the
multi-plane step of the C1 witness configuration, the multimap-to-attribute
translation on empty data, and the cell-path proximity stage on `colC10`. -/
theorem C3_proximity_symmetry_witness :
    countSym (proxLink [] 2 5)
    ∧ countSym (multiPlaneCutStep (fun _ => none) (fun _ _ => true) true 0
        meshTriXY meshTriXY ⟨[⟨meshTriXY, 0, ⟨id, id⟩⟩], []⟩).prox
    ∧ memSymm (writeProximityFromMultimap (fun n => (n : ℤ)) [] [])
    ∧ memSymm (applyProximityStage (fun _ _ => true) [(0, 1)] (-1) [0]
        [(0, 0), (1, 1)] colC10).proximity := by
  have hempty : countSym ([] : List (ℕ × ℕ)) := fun a b => rfl
  have hproxnil : memSymm ([] : List (Finset ℤ)) := by
    intro i j hi hj
    simp at hi
  have hproxC10 : memSymm colC10.proximity := by
    intro i j hi hj
    simp only [colC10, List.length_cons, List.length_nil] at hi hj
    have hi0 : i = 0 := by omega
    have hj0 : j = 0 := by omega
    subst hi0
    subst hj0
    exact Iff.rfl
  refine ⟨(C3_proximity_symmetry.1 [] 2 5 hempty).1, ?_, ?_, ?_⟩
  · exact C3_proximity_symmetry.2.1 (fun _ => none) (fun _ _ => true) true 0
      meshTriXY meshTriXY ⟨[⟨meshTriXY, 0, ⟨id, id⟩⟩], []⟩ hempty
  · exact C3_proximity_symmetry.2.2.1 (fun n => (n : ℤ)) [] [] hempty hproxnil
  · exact C3_proximity_symmetry.2.2.2 (fun _ _ => true) [(0, 1)] (-1) [0]
      [(0, 0), (1, 1)] colC10 hproxC10

end PlanarCutProof
